import Mathlib

/-!
# mysqlmetaquery: view definition reconstruction

A shallow embedding of `MetaView.go` (package `mysqlmetaquery`): the clause
dispatcher `GetViewDefinition`, the condition converter `convertCondition`,
the join converter `convertJoinAST`, the token classifier `getJoinType` and
the expression extractor `convertExpression`.

Go functions that mutate the view definition through a pointer are embedded
as functions from the definition before the call to the definition after it.
A Go function returning `(T, error)` becomes an `Except Err T`; a run-time
panic (slice index out of range) is a separate outcome, `Outcome.panicked`.
-/

namespace MySQLMetaQuery

/-! ## The parser package (`github.com/guinso/rdbmstool/parser`) -/

/-- Node kinds of `parser.NodeType` named in `MetaView.go`; every other value of
the type is `NodeOther`. -/
inductive NodeType where
  | NodeQuery
  | NodeSelect
  | NodeFrom
  | NodeJoin
  | NodeWhere
  | NodeCondition
  | NodeExpression
  | NodeOperator
  | NodeSource
  | NodeAlias
  | NodeColName
  | NodeOther (code : Nat)
  deriving DecidableEq, Repr

/-- Token kinds of `parser.TokenType` named in `MetaView.go`; every other value
of the type is `TokenOther`. -/
inductive TokenType where
  | TokenJoin
  | TokenLeftJoin
  | TokenRightJoin
  | TokenInnerJoin
  | TokenOuterJoin
  | TokenAnd
  | TokenOr
  | TokenOther (code : Nat)
  deriving DecidableEq, Repr

/-- One element of a node's `Source` token stream. `Typ` is the Go field `Type`
read by the converters; `Text` is the value of the token's `String()` method. -/
structure TokenItem where
  Typ : TokenType
  Text : String
  deriving DecidableEq, Repr

/-- The `parser.SyntaxTree` struct: the fields read by `MetaView.go`, and `Raw`,
the value of the node's `RawString()` method (the literal source text the node
spans). -/
inductive SyntaxTree where
  | mk (DataType : NodeType) (ChildNodes : List SyntaxTree)
      (Source : List TokenItem) (StartPosition : Int) (Raw : String)

namespace SyntaxTree

/-- Field `DataType`. -/
def DataType : SyntaxTree → NodeType
  | mk d _ _ _ _ => d

/-- Field `ChildNodes`. -/
def ChildNodes : SyntaxTree → List SyntaxTree
  | mk _ c _ _ _ => c

/-- Field `Source`. -/
def Source : SyntaxTree → List TokenItem
  | mk _ _ s _ _ => s

/-- Field `StartPosition`. -/
def StartPosition : SyntaxTree → Int
  | mk _ _ _ p _ => p

/-- Method `RawString()`. -/
def RawString : SyntaxTree → String
  | mk _ _ _ _ r => r

end SyntaxTree

/-! ## Errors and outcomes -/

/-- The error values built in `MetaView.go`, one constructor per message, and
`External` for an error handed over by the database or by the SQL parser. -/
inductive Err where
  /-- "Parsed syntax tree is not query AST" -/
  | NotQueryAST
  /-- "Invalid AST for SELECT syntax" -/
  | InvalidSelect
  /-- "Invalid AST for FROM syntax" -/
  | InvalidFrom
  /-- "Not implemented yet" -/
  | NotImplemented
  /-- "No node found in WHERE syntax tree" -/
  | WhereNoNode
  /-- "No condition node found in WHERE syntax tree" -/
  | WhereNoCondition
  /-- "expect syntax tree is condition node but it is not (%T)" -/
  | NotConditionNode
  /-- "no definition found in condition syntax tree" -/
  | ConditionNoDefinition
  /-- "Condition ast's 1st node must be expression or sub condition" -/
  | ConditionFirstNode
  /-- "expect operator node but get <%T> at condition ast index %d" -/
  | ExpectOperatorNode (index : Nat)
  /-- "node operator must is token AND / token OR but get <%T>" -/
  | OperatorNotAndOr
  /-- "expect after condition operator must have operand but no more nodes" -/
  | ConditionNoOperand
  /-- "expect node condition or node expression but get <%T> instead" -/
  | ExpectOperandNode
  /-- "ast is not an expression node" -/
  | NotExpressionNode
  /-- "JOIN ast has no source node (%s)", with the node's raw text -/
  | JoinNoSource (raw : String)
  /-- "Cannot find operand for JOIN condition syntax tree" -/
  | JoinNoOperand
  /-- "Cannot find operator for JOIN condition syntax tree" -/
  | JoinNoOperator
  /-- "unsupported token found for JOIN type (%s)", with the token -/
  | UnsupportedJoinToken (token : TokenType)
  /-- "No view definition found for %s.%s" -/
  | NoViewDefinition (dbName viewName : String)
  /-- An error returned by `db.Query`, `rows.Scan` or `parser.ParseSQL`. -/
  | External (message : String)
  deriving DecidableEq, Repr

/-- How a Go call ends: it returns a value, or it panics at run time on a slice
index that is out of range. -/
inductive Outcome (α : Type) where
  | returned (value : α)
  | panicked
  deriving DecidableEq, Repr

/-- The Go expression `source[position]` on a token slice: `none` where Go panics
(negative or past the end). -/
def tokenAt (source : List TokenItem) (position : Int) : Option TokenItem :=
  if position < 0 then none else source.get? position.toNat

/-! ## The query builder (`github.com/guinso/rdbmstool`) -/

/-- The `rdbmstool.JoinType` values that `getJoinType` returns. -/
inductive JoinType where
  | Join
  | LeftJoin
  | RightJoin
  | InnerJoin
  | OuterJoin
  deriving DecidableEq, Repr

/-- Modelled from the spec: the logical operator (AND or OR) that tags a link of
a condition chain; it is what tells `AddAnd` from `AddOr` in the absent
`rdbmstool.ConditionDefinition`. -/
inductive LogicOperator where
  | And
  | Or
  deriving DecidableEq, Repr

mutual
/-- Modelled from the spec: an operand of the absent
`rdbmstool.ConditionDefinition`, a leaf expression (literal text) or a nested
condition. -/
inductive ConditionOperand where
  | Expression (text : String)
  | Complex (cond : ConditionDefinition)
/-- Modelled from the spec: `rdbmstool.ConditionDefinition`, whose declaration is
not part of this package. A condition holds one initial operand (absent in the
zero value `ConditionDefinition{}`) followed by an ordered list of
(logical operator, operand) pairs. -/
inductive ConditionDefinition where
  | mk (Initial : Option ConditionOperand)
      (Chain : List (LogicOperator × ConditionOperand))
end

namespace ConditionDefinition

/-- The zero value `rdbmstool.ConditionDefinition{}`. -/
def zero : ConditionDefinition := mk none []

/-- The initial operand. -/
def Initial : ConditionDefinition → Option ConditionOperand
  | mk i _ => i

/-- The (logical operator, operand) pairs after the initial operand. -/
def Chain : ConditionDefinition → List (LogicOperator × ConditionOperand)
  | mk _ c => c

/-- All operands of the chain, left to right. -/
def operands (cond : ConditionDefinition) : List ConditionOperand :=
  cond.Initial.toList ++ cond.Chain.map Prod.snd

/-- The tags of the links of the chain, left to right. -/
def links (cond : ConditionDefinition) : List LogicOperator :=
  cond.Chain.map Prod.fst

/-- Modelled from the spec: `SetCondition(expr)` of the absent
`rdbmstool.ConditionDefinition` makes a leaf expression the initial operand. -/
def SetCondition : ConditionDefinition → String → ConditionDefinition
  | mk _ c, expr => mk (some (.Expression expr)) c

/-- Modelled from the spec: `SetComplex(cond)` of the absent
`rdbmstool.ConditionDefinition` makes a nested condition the initial operand. -/
def SetComplex : ConditionDefinition → ConditionDefinition → ConditionDefinition
  | mk _ c, sub => mk (some (.Complex sub)) c

/-- Modelled from the spec: `AddAnd(expr)` of the absent
`rdbmstool.ConditionDefinition` appends a leaf operand tagged AND. -/
def AddAnd : ConditionDefinition → String → ConditionDefinition
  | mk i c, expr => mk i (c ++ [(.And, .Expression expr)])

/-- Modelled from the spec: `AddOr(expr)` of the absent
`rdbmstool.ConditionDefinition` appends a leaf operand tagged OR. -/
def AddOr : ConditionDefinition → String → ConditionDefinition
  | mk i c, expr => mk i (c ++ [(.Or, .Expression expr)])

/-- Modelled from the spec: `AddAndComplex(cond)` of the absent
`rdbmstool.ConditionDefinition` appends a nested operand tagged AND. -/
def AddAndComplex : ConditionDefinition → ConditionDefinition → ConditionDefinition
  | mk i c, sub => mk i (c ++ [(.And, .Complex sub)])

/-- Modelled from the spec: `AddOrComplex(cond)` of the absent
`rdbmstool.ConditionDefinition` appends a nested operand tagged OR. -/
def AddOrComplex : ConditionDefinition → ConditionDefinition → ConditionDefinition
  | mk i c, sub => mk i (c ++ [(.Or, .Complex sub)])

end ConditionDefinition

/-- Modelled from the spec: the join descriptor that `JoinAdd` of the absent
`rdbmstool.QueryDefinition` records: join type, source name, alias ("" when
absent) and the condition text. -/
structure JoinDefinition where
  Typ : JoinType
  Source : String
  Alias : String
  Condition : String
  deriving DecidableEq, Repr

/-- Modelled from the spec: the structured query model `rdbmstool.QueryDefinition`,
whose declaration is not part of this package: the ordered select items
(expression, alias), the from-clause (source, alias), the ordered join
descriptors and the optional root condition of WHERE. -/
structure QueryDefinition where
  SelectItems : List (String × String)
  FromClause : Option (String × String)
  Joins : List JoinDefinition
  WhereCondition : Option ConditionDefinition

namespace QueryDefinition

/-- Modelled from the spec: `Select(expression, alias)` of the absent
`rdbmstool.QueryDefinition` appends one (expression, alias) item to the select
list. -/
def Select (query : QueryDefinition) (expression aliasName : String) : QueryDefinition :=
  { query with SelectItems := query.SelectItems ++ [(expression, aliasName)] }

/-- Modelled from the spec: `From(source, alias)` of the absent
`rdbmstool.QueryDefinition` sets the from-clause. -/
def From (query : QueryDefinition) (source aliasName : String) : QueryDefinition :=
  { query with FromClause := some (source, aliasName) }

/-- Modelled from the spec: `JoinAdd(source, alias, joinType, condition)` of the
absent `rdbmstool.QueryDefinition` appends one join descriptor to the join
list. -/
def JoinAdd (query : QueryDefinition) (source aliasName : String) (join : JoinType)
    (condition : String) : QueryDefinition :=
  { query with Joins := query.Joins ++ [⟨join, source, aliasName, condition⟩] }

end QueryDefinition

/-- Modelled from the spec: the absent `rdbmstool.ViewDefinition`, as far as this
package uses it: the view name given to `NewViewDefinition` and the field
`Query`. -/
structure ViewDefinition where
  Name : String
  Query : QueryDefinition

/-- Modelled from the spec: `rdbmstool.NewViewDefinition(name)`, absent from this
package: a fresh view definition whose query model is empty. -/
def NewViewDefinition (name : String) : ViewDefinition :=
  ⟨name, ⟨[], none, [], none⟩⟩

/-! ## `MetaView.go` -/

/-- `getJoinType`: the join type of a token, with the returned error (`none` is
Go's `nil`). The default case returns `rdbmstool.Join` beside the error. -/
def getJoinType (token : TokenType) : JoinType × Option Err :=
  match token with
  | .TokenJoin => (.Join, none)
  | .TokenLeftJoin => (.LeftJoin, none)
  | .TokenRightJoin => (.RightJoin, none)
  | .TokenInnerJoin => (.InnerJoin, none)
  | .TokenOuterJoin => (.OuterJoin, none)
  | other => (.Join, some (.UnsupportedJoinToken other))

/-- `convertExpression`: the raw text of an expression node. -/
def convertExpression (ast : SyntaxTree) : Except Err String :=
  if ast.DataType ≠ .NodeExpression then
    .error .NotExpressionNode
  else
    .ok ast.RawString

mutual
/-- `convertCondition`: a condition node becomes a chain of operands joined by
AND / OR tags. -/
def convertCondition : SyntaxTree → Outcome (Except Err ConditionDefinition)
  | .mk dataType childNodes _ _ _ =>
    if dataType ≠ .NodeCondition then
      .returned (.error .NotConditionNode)
    else
      match childNodes with
      | [] => .returned (.error .ConditionNoDefinition)
      | first :: rest =>
        if first.DataType = .NodeCondition then
          match convertCondition first with
          | .panicked => .panicked
          | .returned (.error tmpErr) => .returned (.error tmpErr)
          | .returned (.ok tmpCond) =>
            convertConditionLoop (ConditionDefinition.zero.SetComplex tmpCond) 1 rest
        else if first.DataType = .NodeExpression then
          match convertExpression first with
          | .error tmpErr => .returned (.error tmpErr)
          | .ok tmpExpr =>
            convertConditionLoop (ConditionDefinition.zero.SetCondition tmpExpr) 1 rest
        else
          .returned (.error .ConditionFirstNode)
/-- The loop `for index < len(ast.ChildNodes)` of `convertCondition`, entered
with the condition built so far, the value of `index`, and the children from
`index` on (`ast.ChildNodes[index:]`). -/
def convertConditionLoop (cond : ConditionDefinition) (index : Nat) :
    List SyntaxTree → Outcome (Except Err ConditionDefinition)
  | [] => .returned (.ok cond)
  | operatorNode :: following =>
    if operatorNode.DataType ≠ .NodeOperator then
      .returned (.error (.ExpectOperatorNode index))
    else
      match tokenAt operatorNode.Source operatorNode.StartPosition with
      | none => .panicked
      | some token =>
        if token.Typ ≠ .TokenAnd ∧ token.Typ ≠ .TokenOr then
          .returned (.error .OperatorNotAndOr)
        else
          match following with
          | [] => .returned (.error .ConditionNoOperand)
          | operand :: remaining =>
            if operand.DataType = .NodeExpression then
              match convertExpression operand with
              | .error tmpExprErr => .returned (.error tmpExprErr)
              | .ok tmpExpr =>
                if token.Typ = .TokenOr then
                  convertConditionLoop (cond.AddOr tmpExpr) (index + 2) remaining
                else
                  convertConditionLoop (cond.AddAnd tmpExpr) (index + 2) remaining
            else if operand.DataType = .NodeCondition then
              match convertCondition operand with
              | .panicked => .panicked
              | .returned (.error tmpCondErr) => .returned (.error tmpCondErr)
              | .returned (.ok tmpCond) =>
                if token.Typ = .TokenOr then
                  convertConditionLoop (cond.AddOrComplex tmpCond) (index + 2) remaining
                else
                  convertConditionLoop (cond.AddAndComplex tmpCond) (index + 2) remaining
            else
              .returned (.error .ExpectOperandNode)
end

/-- The child at `index` when the Go guard
`nodeLen > index && ast.ChildNodes[index].DataType == kind` holds, `none` when
the guard fails. -/
def childOfKind (ast : SyntaxTree) (index : Nat) (kind : NodeType) : Option SyntaxTree :=
  if ast.ChildNodes.length > index then
    (ast.ChildNodes.get? index).filter (fun node => node.DataType = kind)
  else
    none

/-- `convertJoinAST`: the view definition after the call and the returned error
(`none` is Go's `nil`). `ast.ChildNodes[index]` outside a length guard is
`List.get?`, and the call panics where that is `none`. -/
def convertJoinAST (viewDef : ViewDefinition) (ast : SyntaxTree) :
    Outcome (ViewDefinition × Option Err) :=
  let nodeLen := ast.ChildNodes.length
  let joinAdd := fun (source aliasName : String) (join : JoinType)
      (lhs operator rhs : String) =>
    ({ viewDef with
        Query := viewDef.Query.JoinAdd source aliasName join
          (lhs ++ " " ++ operator ++ " " ++ rhs) }, (none : Option Err))
  match tokenAt ast.Source ast.StartPosition with
  | none => .panicked
  | some leading =>
    match getJoinType leading.Typ with
    | (_, some joinErr) => .returned (viewDef, some joinErr)
    | (join, none) =>
      -- source
      match childOfKind ast 0 .NodeSource with
      | none => .returned (viewDef, some (.JoinNoSource ast.RawString))
      | some sourceNode =>
        let source := sourceNode.RawString
        -- alias
        let (aliasName, index) :=
          match childOfKind ast 1 .NodeAlias with
          | some aliasNode => (aliasNode.RawString, 2)
          | none => ("", 1)
        -- condition
        if nodeLen > index then
          -- left hand side
          match ast.ChildNodes.get? index with
          | none => .panicked
          | some lhsNode =>
            if lhsNode.DataType = .NodeCondition ∨ lhsNode.DataType = .NodeExpression then
              let lhs := lhsNode.RawString
              -- operator
              match childOfKind ast (index + 1) .NodeOperator with
              | none => .returned (viewDef, some .JoinNoOperator)
              | some operatorNode =>
                match tokenAt operatorNode.Source operatorNode.StartPosition with
                | none => .panicked
                | some token =>
                  let operator := token.Text
                  -- right hand side
                  match ast.ChildNodes.get? (index + 2) with
                  | none => .panicked
                  | some rhsNode =>
                    if rhsNode.DataType = .NodeCondition ∨
                        rhsNode.DataType = .NodeExpression then
                      .returned (joinAdd source aliasName join lhs operator rhsNode.RawString)
                    else
                      .returned (viewDef, some .JoinNoOperand)
            else
              .returned (viewDef, some .JoinNoOperand)
        else
          .returned (joinAdd source aliasName join "" "" "")

/-- `convertWhereAST`: the view definition after the call (never changed) and the
returned error. -/
def convertWhereAST (viewDef : ViewDefinition) (ast : SyntaxTree) :
    ViewDefinition × Option Err :=
  if ast.ChildNodes.length ≠ 1 then
    (viewDef, some .WhereNoNode)
  else if (ast.ChildNodes.get? 0).map SyntaxTree.DataType ≠ some .NodeCondition then
    (viewDef, some .WhereNoCondition)
  else
    (viewDef, none)

/-- The database handle `rdbmstool.DbHandlerProxy`, as far as this package uses
it: `Query` returns an error or the rows of the result, each row being what
`rows.Scan` into one string yields for it. -/
structure DbHandlerProxy where
  Query : String → List String → Except Err (List (Except Err String))

/-- `getViewDefinition`: the raw SQL text of a view, read from the catalog. -/
def getViewDefinition (db : DbHandlerProxy) (dbName viewName : String) :
    Except Err String :=
  match db.Query ("SELECT VIEW_DEFINITION " ++ "FROM information_schema.views " ++
      "WHERE table_schema=? AND table_name=?") [dbName, viewName] with
  | .error err => .error err
  | .ok rows =>
    let found := fun (rawDef : String) =>
      if rawDef = "" then
        (.error (.NoViewDefinition dbName viewName) : Except Err String)
      else
        .ok rawDef
    match rows with
    | [] => found ""
    | .error err :: _ => .error err
    | .ok rawDef :: _ => found rawDef

/-- `GetViewNames`: the names of the views of a schema that match a pattern. A
row whose `Scan` fails leaves `tmp` at "" (the error is not looked at). -/
def GetViewNames (db : DbHandlerProxy) (dbName searchPattern : String) :
    Except Err (List String) :=
  match db.Query ("SELECT table_name FROM information_schema.views" ++
      " WHERE table_schema = ? AND table_name LIKE ?") [dbName, searchPattern] with
  | .error queryErr => .error queryErr
  | .ok rows =>
    .ok (rows.foldl
      (fun result row =>
        let tmp := match row with
          | .ok name => name
          | .error _ => ""
        result ++ [tmp])
      (List.replicate 5 ""))

/-- The `case parser.NodeSelect` loop of `GetViewDefinition` over the columns of
a Select node: the view definition after it and the error it returns with, if
any. -/
def selectColumns (viewDef : ViewDefinition) : List SyntaxTree → ViewDefinition × Option Err
  | [] => (viewDef, none)
  | col :: cols =>
    match col.ChildNodes with
    | [colName, aliasNode] =>
      if colName.DataType = .NodeColName ∧ aliasNode.DataType = .NodeAlias then
        selectColumns
          { viewDef with
            Query := viewDef.Query.Select colName.RawString aliasNode.RawString } cols
      else
        (viewDef, some .InvalidSelect)
    | [colName] =>
      if colName.DataType = .NodeColName then
        selectColumns
          { viewDef with Query := viewDef.Query.Select colName.RawString "" } cols
      else
        (viewDef, some .InvalidSelect)
    | _ => (viewDef, some .InvalidSelect)

/-- The `case parser.NodeFrom` branch of `GetViewDefinition`. -/
def fromSource (viewDef : ViewDefinition) (node : SyntaxTree) : ViewDefinition × Option Err :=
  match node.ChildNodes with
  | [source] =>
    if source.DataType = .NodeSource then
      ({ viewDef with Query := viewDef.Query.From source.RawString "" }, none)
    else
      (viewDef, some .InvalidFrom)
  | [source, aliasNode] =>
    if source.DataType = .NodeSource ∧ aliasNode.DataType = .NodeAlias then
      ({ viewDef with
          Query := viewDef.Query.From source.RawString aliasNode.RawString }, none)
    else
      (viewDef, some .InvalidFrom)
  | _ => (viewDef, some .InvalidFrom)

/-- The `switch node.DataType` of `GetViewDefinition` for one child of the root:
the view definition after it and the error the function returns with, if any. -/
def dispatchNode (viewDef : ViewDefinition) (node : SyntaxTree) :
    Outcome (ViewDefinition × Option Err) :=
  match node.DataType with
  | .NodeSelect => .returned (selectColumns viewDef node.ChildNodes)
  | .NodeFrom => .returned (fromSource viewDef node)
  | .NodeJoin => convertJoinAST viewDef node
  | .NodeWhere => .returned (viewDef, none)
  | _ => .returned (viewDef, none)

/-- The loop `for _, node := range ast.ChildNodes` of `GetViewDefinition`: it
stops at the first child that makes the function return an error. -/
def dispatchNodes (viewDef : ViewDefinition) : List SyntaxTree →
    Outcome (ViewDefinition × Option Err)
  | [] => .returned (viewDef, none)
  | node :: nodes =>
    match dispatchNode viewDef node with
    | .panicked => .panicked
    | .returned (viewDef1, some err) => .returned (viewDef1, some err)
    | .returned (viewDef1, none) => dispatchNodes viewDef1 nodes

/-- `GetViewDefinition`, over the database handle and the absent
`parser.ParseSQL`. After the loop over the clauses the function returns
`nil, errors.New("Not implemented yet")`. -/
def GetViewDefinition (ParseSQL : String → Except Err SyntaxTree) (db : DbHandlerProxy)
    (dbName viewName : String) : Outcome (Except Err ViewDefinition) :=
  match getViewDefinition db dbName viewName with
  | .error rawErr => .returned (.error rawErr)
  | .ok rawDef =>
    match ParseSQL rawDef with
    | .error astErr => .returned (.error astErr)
    | .ok ast =>
      if ast.DataType ≠ .NodeQuery then
        .returned (.error .NotQueryAST)
      else
        match dispatchNodes (NewViewDefinition "") ast.ChildNodes with
        | .panicked => .panicked
        | .returned (_, some err) => .returned (.error err)
        | .returned (_, none) => .returned (.error .NotImplemented)

/-! ## Vocabulary of the properties -/

/-- The token kinds that stand for a join: JOIN, LEFT JOIN, RIGHT JOIN, INNER JOIN
and OUTER JOIN. -/
def supportedJoinTokens : List TokenType :=
  [.TokenJoin, .TokenLeftJoin, .TokenRightJoin, .TokenInnerJoin, .TokenOuterJoin]

/-- The kinds of the children of a node, in order: the shape of the node. -/
def childKinds (node : SyntaxTree) : List NodeType :=
  node.ChildNodes.map SyntaxTree.DataType

/-- The (expression, alias) pair a column of a Select node stands for: the raw
text of its first child, and the raw text of its second child or "" when it has
none. -/
def columnPair (col : SyntaxTree) : String × String :=
  (((col.ChildNodes.get? 0).map SyntaxTree.RawString).getD "",
   ((col.ChildNodes.get? 1).map SyntaxTree.RawString).getD "")

/-- An Operator node whose underlying token is AND or OR. -/
def isAndOrOperator (node : SyntaxTree) : Bool :=
  node.DataType = .NodeOperator &&
    match tokenAt node.Source node.StartPosition with
    | some token => token.Typ = .TokenAnd || token.Typ = .TokenOr
    | none => false

mutual
/-- A well-formed Condition node: its kind is Condition and its children are one
operand followed by (operator, operand) pairs, every operator an AND / OR
Operator node and every operand an Expression node or a well-formed Condition
node. -/
def wellFormedCondition : SyntaxTree → Bool
  | .mk dataType childNodes _ _ _ =>
    dataType = .NodeCondition &&
      match childNodes with
      | [] => false
      | first :: rest =>
        (first.DataType = .NodeExpression || wellFormedCondition first) &&
          wellFormedPairs rest
/-- The children after the first operand of a well-formed Condition node. -/
def wellFormedPairs : List SyntaxTree → Bool
  | [] => true
  | operatorNode :: following =>
    isAndOrOperator operatorNode &&
      match following with
      | [] => false
      | operand :: remaining =>
        (operand.DataType = .NodeExpression || wellFormedCondition operand) &&
          wellFormedPairs remaining
end

/-- A well-formed operand of a condition: an Expression node or a well-formed
nested Condition node. -/
def wellFormedOperand (node : SyntaxTree) : Bool :=
  node.DataType = .NodeExpression || wellFormedCondition node

/-- The child list made of (operator, operand) pairs, in order. -/
def interleave : List (SyntaxTree × SyntaxTree) → List SyntaxTree
  | [] => []
  | (operatorNode, operand) :: pairs => operatorNode :: operand :: interleave pairs

/-- The chain operand `operand` is the conversion of the operand node `node`: the
raw text of an Expression node, the recursive conversion of a Condition node. -/
def OperandOf (node : SyntaxTree) (operand : ConditionOperand) : Prop :=
  (node.DataType = .NodeExpression ∧ operand = .Expression node.RawString) ∨
  (node.DataType = .NodeCondition ∧
    ∃ sub, convertCondition node = .returned (.ok sub) ∧ operand = .Complex sub)

/-- The tag `tag` is the one of the operator node's token: AND or OR. -/
def LinkOf (operatorNode : SyntaxTree) (tag : LogicOperator) : Prop :=
  ∃ token, tokenAt operatorNode.Source operatorNode.StartPosition = some token ∧
    ((token.Typ = .TokenAnd ∧ tag = .And) ∨ (token.Typ = .TokenOr ∧ tag = .Or))

/-- The chain after one more operand is added with the tag of `token` (OR for an
OR token, AND otherwise). -/
def addOperand (cond : ConditionDefinition) (token : TokenItem)
    (operand : ConditionOperand) : ConditionDefinition :=
  match cond with
  | .mk i c => .mk i (c ++ [(if token.Typ = .TokenOr then .Or else .And, operand)])

/-! ## Example trees -/

/-- A node without children and without tokens of its own, of a given kind and
raw text. -/
def leaf (kind : NodeType) (raw : String) : SyntaxTree :=
  .mk kind [] [] 0 raw

/-- An Operator node over one token. -/
def operatorLeaf (token : TokenType) (text : String) : SyntaxTree :=
  .mk .NodeOperator [] [⟨token, text⟩] 0 text

/-- A Join node over a LEFT JOIN token with the given children. -/
def leftJoin (children : List SyntaxTree) (raw : String) : SyntaxTree :=
  .mk .NodeJoin children [⟨.TokenLeftJoin, "LEFT JOIN"⟩] 0 raw

/-- The join `LEFT JOIN orders o ON o.id = invoices.order_id`. -/
def exampleJoin : SyntaxTree :=
  leftJoin
    [leaf .NodeSource "orders", leaf .NodeAlias "o", leaf .NodeExpression "o.id",
      operatorLeaf (.TokenOther 0) "=", leaf .NodeExpression "invoices.order_id"]
    "LEFT JOIN orders o ON o.id = invoices.order_id"

/-- A join whose condition stops after the operator: `LEFT JOIN orders ON o.id =`. -/
def truncatedJoin : SyntaxTree :=
  leftJoin
    [leaf .NodeSource "orders", leaf .NodeExpression "o.id",
      operatorLeaf (.TokenOther 0) "="]
    "LEFT JOIN orders ON o.id ="

/-- A join with a source and nothing else: `LEFT JOIN orders`. -/
def sourceOnlyJoin : SyntaxTree :=
  leftJoin [leaf .NodeSource "orders"] "LEFT JOIN orders"

/-- A join without a source child. -/
def sourcelessJoin : SyntaxTree :=
  leftJoin [leaf .NodeExpression "o.id"] "LEFT JOIN o.id"

/-- The select clause `SELECT id AS pk, name`. -/
def exampleSelect : SyntaxTree :=
  .mk .NodeSelect
    [.mk (.NodeOther 0) [leaf .NodeColName "id", leaf .NodeAlias "pk"] [] 0 "id AS pk",
      .mk (.NodeOther 0) [leaf .NodeColName "name"] [] 0 "name"]
    [] 0 "SELECT id AS pk, name"

/-- The from clause `FROM invoices`. -/
def exampleFrom : SyntaxTree :=
  .mk .NodeFrom [leaf .NodeSource "invoices"] [] 0 "FROM invoices"

/-- The condition `a=1 AND b=2 OR c=3`. -/
def exampleCondition : SyntaxTree :=
  .mk .NodeCondition
    [leaf .NodeExpression "a=1", operatorLeaf .TokenAnd "AND", leaf .NodeExpression "b=2",
      operatorLeaf .TokenOr "OR", leaf .NodeExpression "c=3"]
    [] 0 "a=1 AND b=2 OR c=3"

/-- A Where node with the given children. -/
def whereNode (children : List SyntaxTree) : SyntaxTree :=
  .mk .NodeWhere children [] 0 "WHERE"

/-- A Query tree with the given clauses. -/
def queryOf (clauses : List SyntaxTree) : SyntaxTree :=
  .mk .NodeQuery clauses [] 0 "SELECT"

/-- The query `SELECT id AS pk, name FROM invoices LEFT JOIN orders o ON
o.id = invoices.order_id WHERE a=1 AND b=2 OR c=3`. -/
def exampleQuery : SyntaxTree :=
  queryOf [exampleSelect, exampleFrom, exampleJoin, whereNode [exampleCondition]]

/-- A catalog that holds one view definition text, whatever is asked. -/
def exampleDb : DbHandlerProxy :=
  ⟨fun _ _ => .ok [.ok ("SELECT id AS pk, name FROM invoices LEFT JOIN orders o " ++
    "ON o.id = invoices.order_id WHERE a=1 AND b=2 OR c=3")]⟩

/-- The parser collaborator that answers every text with the given tree. -/
def parsesTo (ast : SyntaxTree) : String → Except Err SyntaxTree :=
  fun _ => .ok ast

/-! ## Vocabulary and examples of the later properties -/

/-- A column of a Select node of an accepted shape: [ColumnName] or
[ColumnName, Alias]. -/
def wellFormedColumn (col : SyntaxTree) : Bool :=
  decide (childKinds col = [.NodeColName] ∨ childKinds col = [.NodeColName, .NodeAlias])

/-- The kinds of root children the dispatcher has a case for. -/
def clauseKinds : List NodeType :=
  [.NodeSelect, .NodeFrom, .NodeJoin, .NodeWhere]

/-- The SQL text `getViewDefinition` sends to the catalog. -/
def viewDefinitionQuery : String :=
  "SELECT VIEW_DEFINITION " ++ "FROM information_schema.views " ++
    "WHERE table_schema=? AND table_name=?"

/-- The SQL text `GetViewNames` sends to the catalog. -/
def viewNamesQuery : String :=
  "SELECT table_name FROM information_schema.views" ++
    " WHERE table_schema = ? AND table_name LIKE ?"

mutual
/-- Every Operator node of the tree has an underlying token: its start position
lies inside its token stream. -/
def operatorsHaveTokens : SyntaxTree → Bool
  | .mk dataType childNodes source startPosition _ =>
    (dataType ≠ .NodeOperator || (tokenAt source startPosition).isSome) &&
      operatorsHaveTokensList childNodes
/-- Every Operator node of the trees of a list has an underlying token. -/
def operatorsHaveTokensList : List SyntaxTree → Bool
  | [] => true
  | node :: nodes => operatorsHaveTokens node && operatorsHaveTokensList nodes
end

/-- The condition `((a=1))`: a Condition node whose only child is a nested
Condition node. -/
def nestedOnlyCondition : SyntaxTree :=
  .mk .NodeCondition
    [.mk .NodeCondition [leaf .NodeExpression "a=1"] [] 0 "a=1"] [] 0 "(a=1)"

/-- The condition `a=1 AND b=2 OR`, which stops after an operator. -/
def truncatedCondition : SyntaxTree :=
  .mk .NodeCondition
    [leaf .NodeExpression "a=1", operatorLeaf .TokenAnd "AND", leaf .NodeExpression "b=2",
      operatorLeaf .TokenOr "OR"]
    [] 0 "a=1 AND b=2 OR"

/-- The condition `a=1 AND b=2 XOR`, whose second operator is neither AND nor OR
and has no operand after it. -/
def unsupportedOperatorCondition : SyntaxTree :=
  .mk .NodeCondition
    [leaf .NodeExpression "a=1", operatorLeaf .TokenAnd "AND", leaf .NodeExpression "b=2",
      operatorLeaf (.TokenOther 1) "XOR"]
    [] 0 "a=1 AND b=2 XOR"

/-- The condition `a=1 XOR b=2`, whose operator is neither AND nor OR and has an
operand after it. -/
def unsupportedOperatorWithOperand : SyntaxTree :=
  .mk .NodeCondition
    [leaf .NodeExpression "a=1", operatorLeaf (.TokenOther 1) "XOR",
      leaf .NodeExpression "b=2"]
    [] 0 "a=1 XOR b=2"

/-- A Select node whose second column has no ColumnName child. -/
def brokenSelect : SyntaxTree :=
  .mk .NodeSelect
    [.mk (.NodeOther 0) [leaf .NodeColName "id"] [] 0 "id",
      .mk (.NodeOther 0) [leaf .NodeAlias "pk"] [] 0 "AS pk",
      .mk (.NodeOther 0) [leaf .NodeColName "name"] [] 0 "name"]
    [] 0 "SELECT id, AS pk, name"

/-- The from clause `FROM invoices i`. -/
def aliasedFrom : SyntaxTree :=
  .mk .NodeFrom [leaf .NodeSource "invoices", leaf .NodeAlias "i"] [] 0 "FROM invoices i"

/-- An Operator node whose token stream is empty, so that its start position
lies outside it: the node has no underlying token. -/
def tokenlessOperator : SyntaxTree :=
  .mk .NodeOperator [] [] 0 "AND"

/-- A Condition node whose second child is an Operator node without an underlying
token. -/
def tokenlessOperatorCondition : SyntaxTree :=
  .mk .NodeCondition [leaf .NodeExpression "a=1", tokenlessOperator] [] 0 "a=1 AND"

/-- A Condition node with two operands in a row and then an Operator node
without an underlying token. -/
def defectBeforeTokenlessOperator : SyntaxTree :=
  .mk .NodeCondition
    [leaf .NodeExpression "a=1", leaf .NodeExpression "b=2", tokenlessOperator]
    [] 0 "a=1 b=2 AND"

/-- A root child of a kind the dispatcher has no case for. -/
def groupByNode : SyntaxTree :=
  .mk (.NodeOther 7) [leaf .NodeColName "id"] [] 0 "GROUP BY id"

/-- A catalog whose query returns no row. -/
def emptyDb : DbHandlerProxy :=
  ⟨fun _ _ => .ok []⟩

/-- A catalog whose query returns two rows, `v_orders` and `v_invoices`. -/
def twoViewsDb : DbHandlerProxy :=
  ⟨fun _ _ => .ok [.ok "v_orders", .ok "v_invoices"]⟩

/-! ## The token classifier -/

theorem getJoinType_of_supported {token : TokenType} (h : token ∈ supportedJoinTokens) :
    getJoinType token = ((getJoinType token).1, none) := by
  simp [supportedJoinTokens] at h
  rcases h with h | h | h | h | h <;> subst h <;> rfl

/-- C10: `getJoinType` maps JOIN, LEFT JOIN, RIGHT JOIN, INNER JOIN and OUTER JOIN
to Join, LeftJoin, RightJoin, InnerJoin and OuterJoin; it returns no error
exactly on these five token kinds, distinct supported tokens get distinct join
types, and every other token kind gets the unsupported-token error. -/
theorem getJoinType_classifies (token : TokenType) :
    getJoinType .TokenJoin = (.Join, none) ∧
    getJoinType .TokenLeftJoin = (.LeftJoin, none) ∧
    getJoinType .TokenRightJoin = (.RightJoin, none) ∧
    getJoinType .TokenInnerJoin = (.InnerJoin, none) ∧
    getJoinType .TokenOuterJoin = (.OuterJoin, none) ∧
    ((getJoinType token).2 = none ↔ token ∈ supportedJoinTokens) ∧
    (token ∉ supportedJoinTokens →
      getJoinType token = (.Join, some (.UnsupportedJoinToken token))) ∧
    (∀ other ∈ supportedJoinTokens, token ∈ supportedJoinTokens →
      (getJoinType token).1 = (getJoinType other).1 → token = other) := by
  refine ⟨rfl, rfl, rfl, rfl, rfl, ?_, ?_, ?_⟩
  · cases token <;> simp [getJoinType, supportedJoinTokens]
  · cases token <;> simp [getJoinType, supportedJoinTokens]
  · intro other ho ht
    simp [supportedJoinTokens] at ho ht
    rcases ho with h | h | h | h | h <;> rcases ht with g | g | g | g | g <;>
      subst h <;> subst g <;> simp [getJoinType]

/-! ## The join converter -/

/-- C9: a Join node with a supported join token whose child list is empty or
whose first child is not a Source node makes `convertJoinAST` return the
missing-source error ("JOIN ast has no source node"), the view definition being
left as it was. -/
theorem convertJoinAST_missing_source (viewDef : ViewDefinition) (ast : SyntaxTree)
    (leading : TokenItem)
    (hToken : tokenAt ast.Source ast.StartPosition = some leading)
    (hSupported : leading.Typ ∈ supportedJoinTokens)
    (hShape : ast.ChildNodes = [] ∨
      ∃ first rest, ast.ChildNodes = first :: rest ∧ first.DataType ≠ .NodeSource) :
    convertJoinAST viewDef ast =
      .returned (viewDef, some (.JoinNoSource ast.RawString)) := by
  have hJoin := getJoinType_of_supported hSupported
  have hKind : childOfKind ast 0 .NodeSource = none := by
    rcases hShape with h | ⟨first, rest, h, hne⟩
    · simp [childOfKind, h]
    · simp [childOfKind, h, Option.filter, hne]
  unfold convertJoinAST
  simp only [hToken]
  rw [hJoin]
  simp only [hKind]

/-- Witness of C9: the join `LEFT JOIN o.id`, whose first child is an Expression
node. -/
theorem convertJoinAST_missing_source_witness :
    convertJoinAST (NewViewDefinition "") sourcelessJoin =
      .returned (NewViewDefinition "", some (.JoinNoSource "LEFT JOIN o.id")) :=
  convertJoinAST_missing_source (NewViewDefinition "") sourcelessJoin
    ⟨.TokenLeftJoin, "LEFT JOIN"⟩ rfl (by decide)
    (Or.inr ⟨leaf .NodeExpression "o.id", [], rfl, by decide⟩)

/-- C3: a Join node with a supported join token and children
[Source, optional Alias, operand, Operator, operand] makes `convertJoinAST`
return no error and append one join descriptor at the end of the join list,
everything else of the view definition unchanged: the type is the
classification of the leading token, the source and alias are the raw texts of
the Source and Alias children ("" without an Alias child), and the condition is
`lhs + " " + operator + " " + rhs`. -/
theorem convertJoinAST_wellformed (viewDef : ViewDefinition) (ast : SyntaxTree)
    (leading : TokenItem) (sourceNode : SyntaxTree) (aliasNode : Option SyntaxTree)
    (lhsNode operatorNode rhsNode : SyntaxTree) (token : TokenItem)
    (hToken : tokenAt ast.Source ast.StartPosition = some leading)
    (hSupported : leading.Typ ∈ supportedJoinTokens)
    (hChildren : ast.ChildNodes =
      sourceNode :: (aliasNode.toList ++ [lhsNode, operatorNode, rhsNode]))
    (hSource : sourceNode.DataType = .NodeSource)
    (hAlias : ∀ node ∈ aliasNode, node.DataType = .NodeAlias)
    (hLhs : lhsNode.DataType = .NodeExpression ∨ lhsNode.DataType = .NodeCondition)
    (hOperator : operatorNode.DataType = .NodeOperator)
    (hOperatorToken :
      tokenAt operatorNode.Source operatorNode.StartPosition = some token)
    (hRhs : rhsNode.DataType = .NodeExpression ∨ rhsNode.DataType = .NodeCondition) :
    convertJoinAST viewDef ast =
      .returned
        ({ viewDef with
            Query := { viewDef.Query with
              Joins := viewDef.Query.Joins ++
                [{ Typ := (getJoinType leading.Typ).1
                   Source := sourceNode.RawString
                   Alias := (aliasNode.map SyntaxTree.RawString).getD ""
                   Condition :=
                    lhsNode.RawString ++ " " ++ token.Text ++ " " ++ rhsNode.RawString }] } },
          none) := by
  have hJoin := getJoinType_of_supported hSupported
  have hLhsNotAlias : lhsNode.DataType ≠ .NodeAlias := by
    rcases hLhs with h | h <;> simp [h]
  have hLhs2 : lhsNode.DataType = .NodeCondition ∨ lhsNode.DataType = .NodeExpression :=
    hLhs.symm
  have hRhs2 : rhsNode.DataType = .NodeCondition ∨ rhsNode.DataType = .NodeExpression :=
    hRhs.symm
  unfold convertJoinAST
  simp only [hToken]
  rw [hJoin]
  cases aliasNode with
  | none =>
    simp [childOfKind, hChildren, Option.filter, hSource, hLhsNotAlias, hLhs2, hOperator,
      hOperatorToken, hRhs2, QueryDefinition.JoinAdd]
  | some aliasNode =>
    have hA : aliasNode.DataType = .NodeAlias := hAlias aliasNode rfl
    simp [childOfKind, hChildren, Option.filter, hSource, hA, hLhs2, hOperator,
      hOperatorToken, hRhs2, QueryDefinition.JoinAdd]

/-- Witness of C3: `LEFT JOIN orders o ON o.id = invoices.order_id` gives the join
descriptor (LeftJoin, "orders", "o", "o.id = invoices.order_id"). -/
theorem convertJoinAST_wellformed_witness :
    convertJoinAST (NewViewDefinition "") exampleJoin =
      .returned
        (⟨"", ⟨[], none, [⟨.LeftJoin, "orders", "o", "o.id = invoices.order_id"⟩], none⟩⟩,
          none) :=
  convertJoinAST_wellformed (NewViewDefinition "") exampleJoin ⟨.TokenLeftJoin, "LEFT JOIN"⟩
    (leaf .NodeSource "orders") (some (leaf .NodeAlias "o")) (leaf .NodeExpression "o.id")
    (operatorLeaf (.TokenOther 0) "=") (leaf .NodeExpression "invoices.order_id")
    ⟨.TokenOther 0, "="⟩ rfl (by decide) rfl rfl (by simp [leaf, SyntaxTree.DataType])
    (Or.inl rfl) rfl rfl (Or.inl rfl)

theorem convertJoinAST_truncated_panics (viewDef : ViewDefinition) (ast : SyntaxTree)
    (leading : TokenItem) (sourceNode : SyntaxTree) (aliasNode : Option SyntaxTree)
    (lhsNode operatorNode : SyntaxTree) (token : TokenItem)
    (hToken : tokenAt ast.Source ast.StartPosition = some leading)
    (hSupported : leading.Typ ∈ supportedJoinTokens)
    (hChildren : ast.ChildNodes = sourceNode :: (aliasNode.toList ++ [lhsNode, operatorNode]))
    (hSource : sourceNode.DataType = .NodeSource)
    (hAlias : ∀ node ∈ aliasNode, node.DataType = .NodeAlias)
    (hLhs : lhsNode.DataType = .NodeExpression ∨ lhsNode.DataType = .NodeCondition)
    (hOperator : operatorNode.DataType = .NodeOperator)
    (hOperatorToken :
      tokenAt operatorNode.Source operatorNode.StartPosition = some token) :
    convertJoinAST viewDef ast = .panicked := by
  have hJoin := getJoinType_of_supported hSupported
  have hLhsNotAlias : lhsNode.DataType ≠ .NodeAlias := by
    rcases hLhs with h | h <;> simp [h]
  have hLhs2 : lhsNode.DataType = .NodeCondition ∨ lhsNode.DataType = .NodeExpression :=
    hLhs.symm
  unfold convertJoinAST
  simp only [hToken]
  rw [hJoin]
  cases aliasNode with
  | none =>
    simp [childOfKind, hChildren, Option.filter, hSource, hLhsNotAlias, hLhs2, hOperator,
      hOperatorToken]
  | some aliasNode =>
    have hA : aliasNode.DataType = .NodeAlias := hAlias aliasNode rfl
    simp [childOfKind, hChildren, Option.filter, hSource, hA, hLhs2, hOperator,
      hOperatorToken]

/-- C7: on the join `LEFT JOIN orders ON o.id =`, whose children stop after the
Operator node, `convertJoinAST` does not return the missing-operand error: it
reads `ast.ChildNodes[index]` past the end of the child list and panics. -/
theorem convertJoinAST_truncated_example :
    convertJoinAST (NewViewDefinition "") truncatedJoin = .panicked ∧
    convertJoinAST (NewViewDefinition "") truncatedJoin ≠
      .returned (NewViewDefinition "", some .JoinNoOperand) := by
  have h : convertJoinAST (NewViewDefinition "") truncatedJoin = .panicked :=
    convertJoinAST_truncated_panics (NewViewDefinition "") truncatedJoin
      ⟨.TokenLeftJoin, "LEFT JOIN"⟩ (leaf .NodeSource "orders") none
      (leaf .NodeExpression "o.id") (operatorLeaf (.TokenOther 0) "=") ⟨.TokenOther 0, "="⟩
      rfl (by decide) rfl rfl (by simp) (Or.inl rfl) rfl rfl
  exact ⟨h, by rw [h]; simp⟩

/-- C8, as the code has it: a Join node with a supported join token whose
children are only [Source] or only [Source, Alias] makes `convertJoinAST` return
no error and append one join descriptor, with the classified type, the source
and alias texts, and the condition assembled from an empty left operand,
operator and right operand. -/
theorem convertJoinAST_without_condition (viewDef : ViewDefinition) (ast : SyntaxTree)
    (leading : TokenItem) (sourceNode : SyntaxTree) (aliasNode : Option SyntaxTree)
    (hToken : tokenAt ast.Source ast.StartPosition = some leading)
    (hSupported : leading.Typ ∈ supportedJoinTokens)
    (hChildren : ast.ChildNodes = sourceNode :: aliasNode.toList)
    (hSource : sourceNode.DataType = .NodeSource)
    (hAlias : ∀ node ∈ aliasNode, node.DataType = .NodeAlias) :
    convertJoinAST viewDef ast =
      .returned
        ({ viewDef with
            Query := { viewDef.Query with
              Joins := viewDef.Query.Joins ++
                [{ Typ := (getJoinType leading.Typ).1
                   Source := sourceNode.RawString
                   Alias := (aliasNode.map SyntaxTree.RawString).getD ""
                   Condition := "" ++ " " ++ "" ++ " " ++ "" }] } },
          none) := by
  have hJoin := getJoinType_of_supported hSupported
  unfold convertJoinAST
  simp only [hToken]
  rw [hJoin]
  cases aliasNode with
  | none =>
    simp [childOfKind, hChildren, Option.filter, hSource, QueryDefinition.JoinAdd]
  | some aliasNode =>
    have hA : aliasNode.DataType = .NodeAlias := hAlias aliasNode rfl
    simp [childOfKind, hChildren, Option.filter, hSource, hA, QueryDefinition.JoinAdd]

/-- Witness of C8 as the code has it: `LEFT JOIN orders` is added as a join whose
condition text is two blanks. -/
theorem convertJoinAST_without_condition_witness :
    convertJoinAST (NewViewDefinition "") sourceOnlyJoin =
      .returned (⟨"", ⟨[], none, [⟨.LeftJoin, "orders", "", "  "⟩], none⟩⟩, none) :=
  convertJoinAST_without_condition (NewViewDefinition "") sourceOnlyJoin
    ⟨.TokenLeftJoin, "LEFT JOIN"⟩ (leaf .NodeSource "orders") none rfl (by decide) rfl rfl
    (by simp)

/-- Counterexample to C8 as stated: on `LEFT JOIN orders`, whose only child is a
Source node, `convertJoinAST` returns no error and the join list has grown by
one; it does not return the missing-operand error with the view definition
unchanged. -/
theorem convertJoinAST_source_only_counterexample :
    convertJoinAST (NewViewDefinition "") sourceOnlyJoin =
      .returned (⟨"", ⟨[], none, [⟨.LeftJoin, "orders", "", "  "⟩], none⟩⟩, none) ∧
    convertJoinAST (NewViewDefinition "") sourceOnlyJoin ≠
      .returned (NewViewDefinition "", some .JoinNoOperand) := by
  have h : convertJoinAST (NewViewDefinition "") sourceOnlyJoin =
      .returned (⟨"", ⟨[], none, [⟨.LeftJoin, "orders", "", "  "⟩], none⟩⟩, none) := rfl
  exact ⟨h, by rw [h]; simp⟩

/-! ## The Select clause -/

theorem childKinds_one {col : SyntaxTree} {k : NodeType} (h : childKinds col = [k]) :
    ∃ c, col.ChildNodes = [c] ∧ c.DataType = k := by
  unfold childKinds at h
  cases hc : col.ChildNodes with
  | nil => simp [hc] at h
  | cons c rest =>
    cases rest with
    | nil =>
      simp [hc] at h
      exact ⟨c, rfl, h⟩
    | cons _ _ => simp [hc] at h

theorem childKinds_two {col : SyntaxTree} {k1 k2 : NodeType}
    (h : childKinds col = [k1, k2]) :
    ∃ c a, col.ChildNodes = [c, a] ∧ c.DataType = k1 ∧ a.DataType = k2 := by
  unfold childKinds at h
  cases hc : col.ChildNodes with
  | nil => simp [hc] at h
  | cons c rest =>
    cases rest with
    | nil => simp [hc] at h
    | cons a rest2 =>
      cases rest2 with
      | nil =>
        simp [hc] at h
        exact ⟨c, a, rfl, h.1, h.2⟩
      | cons _ _ => simp [hc] at h

theorem selectColumns_wellformed (cols : List SyntaxTree) :
    ∀ viewDef : ViewDefinition,
    (∀ col ∈ cols, childKinds col = [.NodeColName] ∨
      childKinds col = [.NodeColName, .NodeAlias]) →
    selectColumns viewDef cols =
      ({ viewDef with
          Query := { viewDef.Query with
            SelectItems := viewDef.Query.SelectItems ++ cols.map columnPair } }, none) := by
  induction cols with
  | nil => intro viewDef _; simp [selectColumns]
  | cons col cols ih =>
    intro viewDef h
    have hcol := h col (List.mem_cons_self _ _)
    have hrest : ∀ c ∈ cols, childKinds c = [.NodeColName] ∨
        childKinds c = [.NodeColName, .NodeAlias] :=
      fun c hc => h c (List.mem_cons_of_mem _ hc)
    rcases hcol with h1 | h2
    · obtain ⟨c, hc, hk⟩ := childKinds_one h1
      rw [selectColumns, hc]
      simp only [hk, if_true]
      rw [ih _ hrest]
      simp [QueryDefinition.Select, columnPair, hc]
    · obtain ⟨c, a, hc, hk, ha⟩ := childKinds_two h2
      rw [selectColumns, hc]
      simp only [hk, ha, and_self, if_true]
      rw [ih _ hrest]
      simp [QueryDefinition.Select, columnPair, hc]

/-- C4: for a Select node with N children, each of shape [ColumnName] or
[ColumnName, Alias], the dispatcher returns no error and appends N
(expression, alias) pairs to the select list, in the order of the children:
the raw text of the ColumnName child with the raw text of the Alias child, or
with "" for a bare column. -/
theorem select_appends_columns (viewDef : ViewDefinition) (node : SyntaxTree)
    (hKind : node.DataType = .NodeSelect)
    (hColumns : ∀ col ∈ node.ChildNodes, childKinds col = [.NodeColName] ∨
      childKinds col = [.NodeColName, .NodeAlias]) :
    dispatchNode viewDef node =
      .returned
        ({ viewDef with
            Query := { viewDef.Query with
              SelectItems := viewDef.Query.SelectItems ++ node.ChildNodes.map columnPair } },
          none) ∧
    (node.ChildNodes.map columnPair).length = node.ChildNodes.length := by
  refine ⟨?_, by simp⟩
  unfold dispatchNode
  rw [hKind]
  simp only
  rw [selectColumns_wellformed _ _ hColumns]

/-- Witness of C4: `SELECT id AS pk, name` gives the select list
[("id", "pk"), ("name", "")]. -/
theorem select_appends_columns_witness :
    dispatchNode (NewViewDefinition "") exampleSelect =
      .returned (⟨"", ⟨[("id", "pk"), ("name", "")], none, [], none⟩⟩, none) ∧
    ([("id", "pk"), ("name", "")] : List (String × String)).length = 2 :=
  select_appends_columns (NewViewDefinition "") exampleSelect rfl (by decide)

/-! ## The condition converter -/

theorem wellFormedCondition_kind {t : SyntaxTree} (h : wellFormedCondition t = true) :
    t.DataType = .NodeCondition := by
  cases t with
  | mk d c s p r =>
    cases c with
    | nil => simp [wellFormedCondition] at h
    | cons first rest =>
      simp [wellFormedCondition] at h
      exact h.1

theorem isAndOrOperator_spec {node : SyntaxTree} (h : isAndOrOperator node = true) :
    node.DataType = .NodeOperator ∧ ∃ token,
      tokenAt node.Source node.StartPosition = some token ∧
      (token.Typ = .TokenAnd ∨ token.Typ = .TokenOr) := by
  unfold isAndOrOperator at h
  cases ht : tokenAt node.Source node.StartPosition with
  | none => simp [ht] at h
  | some token =>
    simp [ht] at h
    exact ⟨h.1, token, rfl, h.2⟩

theorem convertExpression_of_kind {node : SyntaxTree}
    (h : node.DataType = .NodeExpression) :
    convertExpression node = .ok node.RawString := by
  simp [convertExpression, h]

theorem convertConditionLoop_expression (cond : ConditionDefinition) (index : Nat)
    (operatorNode operand : SyntaxTree) (remaining : List SyntaxTree) (token : TokenItem)
    (hKind : operatorNode.DataType = .NodeOperator)
    (hToken : tokenAt operatorNode.Source operatorNode.StartPosition = some token)
    (hTyp : token.Typ = .TokenAnd ∨ token.Typ = .TokenOr)
    (hOperand : operand.DataType = .NodeExpression) :
    convertConditionLoop cond index (operatorNode :: operand :: remaining) =
      convertConditionLoop (addOperand cond token (.Expression operand.RawString))
        (index + 2) remaining := by
  have hnot : ¬ (token.Typ ≠ .TokenAnd ∧ token.Typ ≠ .TokenOr) := by
    rcases hTyp with h | h <;> simp [h]
  rw [convertConditionLoop]
  simp only [hKind, ne_eq, not_true_eq_false, if_false, hToken, hnot, hOperand, if_true,
    convertExpression_of_kind hOperand]
  cases cond with
  | mk i c =>
    by_cases hor : token.Typ = .TokenOr <;>
      simp [hor, addOperand, ConditionDefinition.AddOr, ConditionDefinition.AddAnd]

theorem convertConditionLoop_condition (cond : ConditionDefinition) (index : Nat)
    (operatorNode operand : SyntaxTree) (remaining : List SyntaxTree) (token : TokenItem)
    (sub : ConditionDefinition)
    (hKind : operatorNode.DataType = .NodeOperator)
    (hToken : tokenAt operatorNode.Source operatorNode.StartPosition = some token)
    (hTyp : token.Typ = .TokenAnd ∨ token.Typ = .TokenOr)
    (hOperand : operand.DataType = .NodeCondition)
    (hSub : convertCondition operand = .returned (.ok sub)) :
    convertConditionLoop cond index (operatorNode :: operand :: remaining) =
      convertConditionLoop (addOperand cond token (.Complex sub)) (index + 2) remaining := by
  have hnot : ¬ (token.Typ ≠ .TokenAnd ∧ token.Typ ≠ .TokenOr) := by
    rcases hTyp with h | h <;> simp [h]
  rw [convertConditionLoop]
  simp only [hKind, ne_eq, not_true_eq_false, if_false, hToken, hnot, hOperand, if_true,
    hSub]
  cases cond with
  | mk i c =>
    by_cases hor : token.Typ = .TokenOr <;>
      simp [hor, addOperand, ConditionDefinition.AddOrComplex,
        ConditionDefinition.AddAndComplex]

theorem convertCondition_first_expression (dataType : NodeType) (first : SyntaxTree)
    (rest : List SyntaxTree) (src : List TokenItem) (pos : Int) (raw : String)
    (hKind : dataType = .NodeCondition) (hFirst : first.DataType = .NodeExpression) :
    convertCondition (.mk dataType (first :: rest) src pos raw) =
      convertConditionLoop (.mk (some (.Expression first.RawString)) []) 1 rest := by
  rw [convertCondition]
  simp [hKind, hFirst, convertExpression_of_kind hFirst, ConditionDefinition.zero,
    ConditionDefinition.SetCondition]

theorem convertCondition_first_condition (dataType : NodeType) (first : SyntaxTree)
    (rest : List SyntaxTree) (src : List TokenItem) (pos : Int) (raw : String)
    (sub : ConditionDefinition)
    (hKind : dataType = .NodeCondition) (hFirst : first.DataType = .NodeCondition)
    (hSub : convertCondition first = .returned (.ok sub)) :
    convertCondition (.mk dataType (first :: rest) src pos raw) =
      convertConditionLoop (.mk (some (.Complex sub)) []) 1 rest := by
  rw [convertCondition]
  simp [hKind, hFirst, hSub, ConditionDefinition.zero, ConditionDefinition.SetComplex]

mutual
theorem convertCondition_returns : ∀ t : SyntaxTree, wellFormedCondition t = true →
    ∃ c, convertCondition t = .returned (.ok c)
  | .mk dataType [] src pos raw, h => by
    simp [wellFormedCondition] at h
  | .mk dataType (first :: rest) src pos raw, h => by
      simp only [wellFormedCondition, Bool.and_eq_true, Bool.or_eq_true,
        decide_eq_true_eq] at h
      obtain ⟨hk, hf, hr⟩ := h
      by_cases hc : first.DataType = .NodeCondition
      · have hw : wellFormedCondition first = true := by
          rcases hf with hf | hf
          · rw [hf] at hc; exact absurd hc (by decide)
          · exact hf
        obtain ⟨c, hcv⟩ := convertCondition_returns first hw
        rw [convertCondition_first_condition _ _ _ _ _ _ c hk hc hcv]
        exact convertConditionLoop_returns rest hr _ _
      · have he : first.DataType = .NodeExpression := by
          rcases hf with hf | hf
          · exact hf
          · exact absurd (wellFormedCondition_kind hf) hc
        rw [convertCondition_first_expression _ _ _ _ _ _ hk he]
        exact convertConditionLoop_returns rest hr _ _
theorem convertConditionLoop_returns : ∀ rest : List SyntaxTree, wellFormedPairs rest = true →
    ∀ (cond : ConditionDefinition) (index : Nat),
      ∃ c, convertConditionLoop cond index rest = .returned (.ok c)
  | [], _, cond, index => ⟨cond, by rw [convertConditionLoop]⟩
  | [operatorNode], h, _, _ => by
    simp [wellFormedPairs] at h
  | operatorNode :: operand :: remaining, h, cond, index => by
    simp only [wellFormedPairs, Bool.and_eq_true, Bool.or_eq_true, decide_eq_true_eq] at h
    obtain ⟨ho, hf, hr⟩ := h
    obtain ⟨hok, token, htok, htyp⟩ := isAndOrOperator_spec ho
    by_cases he : operand.DataType = .NodeExpression
    · rw [convertConditionLoop_expression _ _ _ _ _ token hok htok htyp he]
      exact convertConditionLoop_returns remaining hr _ _
    · have hw : wellFormedCondition operand = true := by
        rcases hf with hf | hf
        · exact absurd hf he
        · exact hf
      have hc := wellFormedCondition_kind hw
      obtain ⟨c, hcv⟩ := convertCondition_returns operand hw
      rw [convertConditionLoop_condition _ _ _ _ _ token c hok htok htyp hc hcv]
      exact convertConditionLoop_returns remaining hr _ _
end

theorem wellFormedOperand_converts {node : SyntaxTree} (h : wellFormedOperand node = true) :
    ∃ operand, OperandOf node operand := by
  simp only [wellFormedOperand, Bool.or_eq_true, decide_eq_true_eq] at h
  rcases h with h | h
  · exact ⟨_, Or.inl ⟨h, rfl⟩⟩
  · obtain ⟨sub, hsub⟩ := convertCondition_returns node h
    exact ⟨_, Or.inr ⟨wellFormedCondition_kind h, sub, hsub, rfl⟩⟩

theorem convertConditionLoop_pairs (pairs : List (SyntaxTree × SyntaxTree)) :
    (∀ p ∈ pairs, isAndOrOperator p.1 = true ∧ wellFormedOperand p.2 = true) →
    ∀ (initial : Option ConditionOperand) (chain : List (LogicOperator × ConditionOperand))
      (index : Nat),
      ∃ added : List (LogicOperator × ConditionOperand),
        convertConditionLoop (.mk initial chain) index (interleave pairs) =
          .returned (.ok (.mk initial (chain ++ added))) ∧
        List.Forall₂ LinkOf (pairs.map Prod.fst) (added.map Prod.fst) ∧
        List.Forall₂ OperandOf (pairs.map Prod.snd) (added.map Prod.snd) := by
  induction pairs with
  | nil =>
    intro _ initial chain index
    exact ⟨[], by simp [interleave, convertConditionLoop], by simp, by simp⟩
  | cons p pairs ih =>
    intro h initial chain index
    obtain ⟨operatorNode, operand⟩ := p
    have hp := h (operatorNode, operand) (List.mem_cons_self _ _)
    have hrest : ∀ q ∈ pairs, isAndOrOperator q.1 = true ∧ wellFormedOperand q.2 = true :=
      fun q hq => h q (List.mem_cons_of_mem _ hq)
    obtain ⟨hok, token, htok, htyp⟩ := isAndOrOperator_spec hp.1
    have hlink : LinkOf operatorNode (if token.Typ = .TokenOr then .Or else .And) := by
      refine ⟨token, htok, ?_⟩
      rcases htyp with h1 | h1 <;> simp [h1]
    obtain ⟨converted, hconv⟩ := wellFormedOperand_converts hp.2
    have hstep : convertConditionLoop (.mk initial chain) index
        (interleave ((operatorNode, operand) :: pairs)) =
        convertConditionLoop (addOperand (.mk initial chain) token converted)
          (index + 2) (interleave pairs) := by
      rcases hconv with ⟨he, hv⟩ | ⟨hc, sub, hsub, hv⟩
      · rw [hv]
        exact convertConditionLoop_expression _ _ _ _ _ token hok htok htyp he
      · rw [hv]
        exact convertConditionLoop_condition _ _ _ _ _ token sub hok htok htyp hc hsub
    obtain ⟨added, hrun, hlinks, hoperands⟩ :=
      ih hrest initial (chain ++ [(if token.Typ = .TokenOr then .Or else .And, converted)])
        (index + 2)
    refine ⟨(if token.Typ = .TokenOr then .Or else .And, converted) :: added, ?_, ?_, ?_⟩
    · rw [hstep]
      simp only [addOperand]
      rw [hrun]
      simp
    · exact List.Forall₂.cons hlink hlinks
    · exact List.Forall₂.cons hconv hoperands

/-- C2: a well-formed Condition node with k operands (one operand, then k-1
pairs of an AND / OR operator and an operand, every operand an Expression node
or a well-formed nested Condition node) makes `convertCondition` return a chain
and no error; the chain has k operands, the i-th is the conversion of the i-th
operand node (its raw text, or the recursive conversion of the nested node),
and the i-th link carries the tag of the i-th operator token. -/
theorem convertCondition_wellformed (ast first : SyntaxTree)
    (pairs : List (SyntaxTree × SyntaxTree))
    (hKind : ast.DataType = .NodeCondition)
    (hChildren : ast.ChildNodes = first :: interleave pairs)
    (hFirst : wellFormedOperand first = true)
    (hPairs : ∀ p ∈ pairs, isAndOrOperator p.1 = true ∧ wellFormedOperand p.2 = true) :
    ∃ cond, convertCondition ast = .returned (.ok cond) ∧
      cond.operands.length = pairs.length + 1 ∧
      List.Forall₂ OperandOf (first :: pairs.map Prod.snd) cond.operands ∧
      List.Forall₂ LinkOf (pairs.map Prod.fst) cond.links := by
  obtain ⟨converted, hconv⟩ := wellFormedOperand_converts hFirst
  obtain ⟨added, hrun, hlinks, hoperands⟩ :=
    convertConditionLoop_pairs pairs hPairs (some converted) [] 1
  cases ast with
  | mk dataType childNodes src pos raw =>
    simp only [SyntaxTree.DataType] at hKind
    simp only [SyntaxTree.ChildNodes] at hChildren
    subst hChildren
    have hstart : convertCondition (.mk dataType (first :: interleave pairs) src pos raw) =
        convertConditionLoop (.mk (some converted) []) 1 (interleave pairs) := by
      rcases hconv with ⟨he, hv⟩ | ⟨hc, sub, hsub, hv⟩
      · rw [hv]
        exact convertCondition_first_expression _ _ _ _ _ _ hKind he
      · rw [hv]
        exact convertCondition_first_condition _ _ _ _ _ _ sub hKind hc hsub
    refine ⟨.mk (some converted) added, ?_, ?_, ?_, ?_⟩
    · rw [hstart, hrun]
      simp
    · have := hoperands.length_eq
      simp only [List.length_map] at this
      simp [ConditionDefinition.operands, ConditionDefinition.Initial,
        ConditionDefinition.Chain, this]
    · simp only [ConditionDefinition.operands, ConditionDefinition.Initial,
        ConditionDefinition.Chain, Option.toList, List.singleton_append]
      exact List.Forall₂.cons hconv hoperands
    · simpa [ConditionDefinition.links, ConditionDefinition.Chain] using hlinks

/-- Witness of C2: the condition `a=1 AND b=2 OR c=3`, three operands and two
links. -/
theorem convertCondition_wellformed_witness :
    ∃ cond, convertCondition exampleCondition = .returned (.ok cond) ∧
      cond.operands.length = 2 + 1 ∧
      List.Forall₂ OperandOf
        [leaf .NodeExpression "a=1", leaf .NodeExpression "b=2", leaf .NodeExpression "c=3"]
        cond.operands ∧
      List.Forall₂ LinkOf [operatorLeaf .TokenAnd "AND", operatorLeaf .TokenOr "OR"]
        cond.links :=
  convertCondition_wellformed exampleCondition (leaf .NodeExpression "a=1")
    [(operatorLeaf .TokenAnd "AND", leaf .NodeExpression "b=2"),
      (operatorLeaf .TokenOr "OR", leaf .NodeExpression "c=3")]
    rfl rfl (by decide) (by decide)

/-- The chain of `a=1 AND b=2 OR c=3`: ("a=1"), AND ("b=2"), OR ("c=3"). -/
theorem convertCondition_example :
    convertCondition exampleCondition =
      .returned (.ok (.mk (some (.Expression "a=1"))
        [(.And, .Expression "b=2"), (.Or, .Expression "c=3")])) :=
  rfl

/-! ## The clause dispatcher -/

theorem dispatchNode_where (viewDef : ViewDefinition) (node : SyntaxTree)
    (hKind : node.DataType = .NodeWhere) :
    dispatchNode viewDef node = .returned (viewDef, none) := by
  unfold dispatchNode
  rw [hKind]

theorem GetViewDefinition_returns_no_definition
    (ParseSQL : String → Except Err SyntaxTree) (db : DbHandlerProxy)
    (dbName viewName : String) (viewDef : ViewDefinition) :
    GetViewDefinition ParseSQL db dbName viewName ≠ .returned (.ok viewDef) := by
  unfold GetViewDefinition
  split
  · simp
  · split
    · simp
    · split
      · simp
      · split <;> simp

/-- C1: for the view `SELECT id AS pk, name FROM invoices LEFT JOIN orders o ON
o.id = invoices.order_id WHERE a=1 AND b=2 OR c=3`, retrieved and parsed without
error, every clause is dispatched without error and the model is populated, yet
`GetViewDefinition` returns the error "Not implemented yet" and no model. -/
theorem GetViewDefinition_example_not_implemented :
    dispatchNodes (NewViewDefinition "") exampleQuery.ChildNodes =
      .returned
        (⟨"", ⟨[("id", "pk"), ("name", "")], some ("invoices", ""),
          [⟨.LeftJoin, "orders", "o", "o.id = invoices.order_id"⟩], none⟩⟩, none) ∧
    GetViewDefinition (parsesTo exampleQuery) exampleDb "shop" "invoice_view" =
      .returned (.error .NotImplemented) :=
  ⟨rfl, rfl⟩

/-- C5: the Where child of `... WHERE a=1 AND b=2 OR c=3` holds one Condition node
that `convertCondition` converts to a chain, yet the dispatcher leaves the view
definition as it was on that child (the root condition stays unset), and
`GetViewDefinition` returns the error "Not implemented yet". -/
theorem where_condition_not_set :
    convertCondition exampleCondition =
      .returned (.ok (.mk (some (.Expression "a=1"))
        [(.And, .Expression "b=2"), (.Or, .Expression "c=3")])) ∧
    dispatchNode (NewViewDefinition "") (whereNode [exampleCondition]) =
      .returned (NewViewDefinition "", none) ∧
    (NewViewDefinition "").Query.WhereCondition = none ∧
    GetViewDefinition
        (parsesTo (queryOf [exampleSelect, exampleFrom, whereNode [exampleCondition]]))
        exampleDb "shop" "invoice_view" =
      .returned (.error .NotImplemented) :=
  ⟨rfl, rfl, rfl, rfl⟩

/-- C6: for a Where child with no child, with two children, or with one child that
is not a Condition node, `convertWhereAST` would return an invalid-WHERE error,
but `GetViewDefinition` never calls it: the dispatcher passes over the Where
child and the call ends with the error "Not implemented yet". -/
theorem malformed_where_not_rejected :
    (convertWhereAST (NewViewDefinition "") (whereNode [])).2 = some .WhereNoNode ∧
    (convertWhereAST (NewViewDefinition "")
      (whereNode [exampleCondition, exampleCondition])).2 = some .WhereNoNode ∧
    (convertWhereAST (NewViewDefinition "")
      (whereNode [leaf .NodeExpression "a=1"])).2 = some .WhereNoCondition ∧
    dispatchNode (NewViewDefinition "") (whereNode []) =
      .returned (NewViewDefinition "", none) ∧
    GetViewDefinition (parsesTo (queryOf [exampleSelect, exampleFrom, whereNode []]))
        exampleDb "shop" "invoice_view" =
      .returned (.error .NotImplemented) ∧
    GetViewDefinition
        (parsesTo (queryOf [exampleSelect, exampleFrom,
          whereNode [exampleCondition, exampleCondition]]))
        exampleDb "shop" "invoice_view" =
      .returned (.error .NotImplemented) ∧
    GetViewDefinition
        (parsesTo (queryOf [exampleSelect, exampleFrom,
          whereNode [leaf .NodeExpression "a=1"]]))
        exampleDb "shop" "invoice_view" =
      .returned (.error .NotImplemented) :=
  ⟨rfl, rfl, rfl, rfl, rfl, rfl, rfl⟩

/-! ## The condition converter: malformed and degenerate trees -/

theorem interleave_cons_append (operatorNode operand : SyntaxTree)
    (pairs : List (SyntaxTree × SyntaxTree)) (tail : List SyntaxTree) :
    interleave ((operatorNode, operand) :: pairs) ++ tail =
      operatorNode :: operand :: (interleave pairs ++ tail) := by
  simp [interleave]

theorem convertConditionLoop_prefix (pairs : List (SyntaxTree × SyntaxTree))
    (tail : List SyntaxTree) :
    (∀ p ∈ pairs, isAndOrOperator p.1 = true ∧ wellFormedOperand p.2 = true) →
    ∀ (initial : Option ConditionOperand) (chain : List (LogicOperator × ConditionOperand))
      (index : Nat),
      ∃ added : List (LogicOperator × ConditionOperand),
        convertConditionLoop (.mk initial chain) index (interleave pairs ++ tail) =
          convertConditionLoop (.mk initial (chain ++ added)) (index + 2 * pairs.length)
            tail := by
  induction pairs with
  | nil =>
    intro _ initial chain index
    exact ⟨[], by simp [interleave]⟩
  | cons p pairs ih =>
    intro h initial chain index
    obtain ⟨operatorNode, operand⟩ := p
    have hp := h (operatorNode, operand) (List.mem_cons_self _ _)
    have hrest : ∀ q ∈ pairs, isAndOrOperator q.1 = true ∧ wellFormedOperand q.2 = true :=
      fun q hq => h q (List.mem_cons_of_mem _ hq)
    obtain ⟨hok, token, htok, htyp⟩ := isAndOrOperator_spec hp.1
    obtain ⟨converted, hconv⟩ := wellFormedOperand_converts hp.2
    have hstep : convertConditionLoop (.mk initial chain) index
        (interleave ((operatorNode, operand) :: pairs) ++ tail) =
        convertConditionLoop (addOperand (.mk initial chain) token converted)
          (index + 2) (interleave pairs ++ tail) := by
      rw [interleave_cons_append]
      rcases hconv with ⟨he, hv⟩ | ⟨hc, sub, hsub, hv⟩
      · rw [hv]
        exact convertConditionLoop_expression _ _ _ _ _ token hok htok htyp he
      · rw [hv]
        exact convertConditionLoop_condition _ _ _ _ _ token sub hok htok htyp hc hsub
    obtain ⟨added, hrun⟩ :=
      ih hrest initial (chain ++ [(if token.Typ = .TokenOr then .Or else .And, converted)])
        (index + 2)
    refine ⟨(if token.Typ = .TokenOr then .Or else .And, converted) :: added, ?_⟩
    rw [hstep]
    simp only [addOperand]
    rw [hrun]
    simp only [List.append_assoc, List.singleton_append, List.length_cons]
    congr 1
    omega

theorem convertCondition_start (ast first : SyntaxTree) (rest : List SyntaxTree)
    (hKind : ast.DataType = .NodeCondition)
    (hChildren : ast.ChildNodes = first :: rest)
    (hFirst : wellFormedOperand first = true) :
    ∃ converted, convertCondition ast =
      convertConditionLoop (.mk (some converted) []) 1 rest := by
  obtain ⟨converted, hconv⟩ := wellFormedOperand_converts hFirst
  cases ast with
  | mk dataType childNodes src pos raw =>
    simp only [SyntaxTree.DataType] at hKind
    simp only [SyntaxTree.ChildNodes] at hChildren
    subst hChildren
    refine ⟨converted, ?_⟩
    rcases hconv with ⟨he, hv⟩ | ⟨hc, sub, hsub, hv⟩
    · rw [hv]
      exact convertCondition_first_expression _ _ _ _ _ _ hKind he
    · rw [hv]
      exact convertCondition_first_condition _ _ _ _ _ _ sub hKind hc hsub

/-- C12: a Condition node whose children are a well-formed first operand, zero or
more well-formed (AND / OR operator, operand) pairs, and then one more AND / OR
Operator node with nothing after it makes `convertCondition` return the error
"expect after condition operator must have operand but no more nodes" and no
condition. -/
theorem convertCondition_truncated (ast first : SyntaxTree)
    (pairs : List (SyntaxTree × SyntaxTree)) (lastOperator : SyntaxTree)
    (hKind : ast.DataType = .NodeCondition)
    (hChildren : ast.ChildNodes = first :: (interleave pairs ++ [lastOperator]))
    (hFirst : wellFormedOperand first = true)
    (hPairs : ∀ p ∈ pairs, isAndOrOperator p.1 = true ∧ wellFormedOperand p.2 = true)
    (hLast : isAndOrOperator lastOperator = true) :
    convertCondition ast = .returned (.error .ConditionNoOperand) := by
  obtain ⟨converted, hstart⟩ := convertCondition_start ast first _ hKind hChildren hFirst
  obtain ⟨added, hrun⟩ :=
    convertConditionLoop_prefix pairs [lastOperator] hPairs (some converted) [] 1
  obtain ⟨hok, token, htok, htyp⟩ := isAndOrOperator_spec hLast
  have hnot : ¬ (token.Typ ≠ .TokenAnd ∧ token.Typ ≠ .TokenOr) := by
    rcases htyp with h | h <;> simp [h]
  rw [hstart, hrun, convertConditionLoop]
  simp [hok, htok, hnot]

/-- Witness of C12: the condition `a=1 AND b=2 OR` stops after an operator. -/
theorem convertCondition_truncated_witness :
    convertCondition truncatedCondition = .returned (.error .ConditionNoOperand) :=
  convertCondition_truncated truncatedCondition (leaf .NodeExpression "a=1")
    [(operatorLeaf .TokenAnd "AND", leaf .NodeExpression "b=2")] (operatorLeaf .TokenOr "OR")
    rfl rfl (by decide) (by decide) (by decide)

/-- C13: when, after a well-formed first operand and zero or more well-formed
(AND / OR operator, operand) pairs, the next child is an Operator node whose
token is neither AND nor OR, `convertCondition` returns the error "node operator
must is token AND / token OR", whatever follows that Operator node (an operand,
more children, or nothing). -/
theorem convertCondition_unsupported_operator (ast first : SyntaxTree)
    (pairs : List (SyntaxTree × SyntaxTree)) (operatorNode : SyntaxTree)
    (following : List SyntaxTree) (token : TokenItem)
    (hKind : ast.DataType = .NodeCondition)
    (hChildren : ast.ChildNodes = first :: (interleave pairs ++ operatorNode :: following))
    (hFirst : wellFormedOperand first = true)
    (hPairs : ∀ p ∈ pairs, isAndOrOperator p.1 = true ∧ wellFormedOperand p.2 = true)
    (hOperator : operatorNode.DataType = .NodeOperator)
    (hToken : tokenAt operatorNode.Source operatorNode.StartPosition = some token)
    (hAnd : token.Typ ≠ .TokenAnd) (hOr : token.Typ ≠ .TokenOr) :
    convertCondition ast = .returned (.error .OperatorNotAndOr) := by
  obtain ⟨converted, hstart⟩ := convertCondition_start ast first _ hKind hChildren hFirst
  obtain ⟨added, hrun⟩ :=
    convertConditionLoop_prefix pairs (operatorNode :: following) hPairs (some converted) [] 1
  rw [hstart, hrun]
  cases following with
  | nil =>
    rw [convertConditionLoop]
    simp [hOperator, hToken, hAnd, hOr]
  | cons operand remaining =>
    rw [convertConditionLoop]
    simp [hOperator, hToken, hAnd, hOr]

/-- Witness of C13: `a=1 AND b=2 XOR`, where nothing follows the operator, and
`a=1 XOR b=2`, where an operand follows it. -/
theorem convertCondition_unsupported_operator_witness :
    convertCondition unsupportedOperatorCondition = .returned (.error .OperatorNotAndOr) ∧
    convertCondition unsupportedOperatorWithOperand =
      .returned (.error .OperatorNotAndOr) :=
  ⟨convertCondition_unsupported_operator unsupportedOperatorCondition
      (leaf .NodeExpression "a=1") [(operatorLeaf .TokenAnd "AND", leaf .NodeExpression "b=2")]
      (operatorLeaf (.TokenOther 1) "XOR") [] ⟨.TokenOther 1, "XOR"⟩
      rfl rfl (by decide) (by decide) rfl rfl (by decide) (by decide),
    convertCondition_unsupported_operator unsupportedOperatorWithOperand
      (leaf .NodeExpression "a=1") [] (operatorLeaf (.TokenOther 1) "XOR")
      [leaf .NodeExpression "b=2"] ⟨.TokenOther 1, "XOR"⟩
      rfl rfl (by decide) (by decide) rfl rfl (by decide) (by decide)⟩

/-- C11, as the code has it: a Condition node whose only child is a nested
Condition node that converts to `sub` makes `convertCondition` return, with no
error, the complex condition whose initial operand is `sub` and which has no
(logical operator, operand) pair after it. -/
theorem convertCondition_nested_only (ast child : SyntaxTree) (sub : ConditionDefinition)
    (hKind : ast.DataType = .NodeCondition)
    (hChildren : ast.ChildNodes = [child])
    (hChild : child.DataType = .NodeCondition)
    (hSub : convertCondition child = .returned (.ok sub)) :
    convertCondition ast = .returned (.ok (.mk (some (.Complex sub)) [])) ∧
    (ConditionDefinition.mk (some (.Complex sub)) []).Chain.length = 0 := by
  refine ⟨?_, rfl⟩
  cases ast with
  | mk dataType childNodes src pos raw =>
    simp only [SyntaxTree.DataType] at hKind
    simp only [SyntaxTree.ChildNodes] at hChildren
    subst hChildren
    rw [convertCondition_first_condition _ _ _ _ _ _ sub hKind hChild hSub,
      convertConditionLoop]

/-- Witness of C11 as the code has it: the condition `((a=1))`. -/
theorem convertCondition_nested_only_witness :
    convertCondition nestedOnlyCondition =
      .returned (.ok (.mk (some (.Complex (.mk (some (.Expression "a=1")) []))) [])) ∧
    (ConditionDefinition.mk
      (some (.Complex (.mk (some (.Expression "a=1")) []))) []).Chain.length = 0 :=
  convertCondition_nested_only nestedOnlyCondition
    (.mk .NodeCondition [leaf .NodeExpression "a=1"] [] 0 "a=1")
    (.mk (some (.Expression "a=1")) []) rfl rfl rfl rfl

/-- Counterexample to C11 as stated: on `((a=1))`, a Condition node whose only
child is a nested Condition node, `convertCondition` returns a complex condition
with no pair after its initial operand, and no error. -/
theorem convertCondition_nested_only_counterexample :
    convertCondition nestedOnlyCondition =
      .returned (.ok (.mk (some (.Complex (.mk (some (.Expression "a=1")) []))) [])) ∧
    ¬ ∃ e, convertCondition nestedOnlyCondition = .returned (.error e) := by
  have h : convertCondition nestedOnlyCondition =
      .returned (.ok (.mk (some (.Complex (.mk (some (.Expression "a=1")) []))) [])) := rfl
  refine ⟨h, ?_⟩
  rintro ⟨e, he⟩
  rw [h] at he
  simp at he

theorem operatorsHaveTokens_operator {node : SyntaxTree}
    (hKind : node.DataType = .NodeOperator)
    (hToken : tokenAt node.Source node.StartPosition = none) :
    operatorsHaveTokens node = false := by
  cases node with
  | mk d c s p r =>
    simp only [SyntaxTree.DataType] at hKind
    simp only [SyntaxTree.Source, SyntaxTree.StartPosition] at hToken
    simp [operatorsHaveTokens, hKind, hToken]

theorem operatorsHaveTokens_child {d : NodeType} {children : List SyntaxTree}
    {s : List TokenItem} {p : Int} {r : String}
    (h : operatorsHaveTokensList children = false) :
    operatorsHaveTokens (.mk d children s p r) = false := by
  simp [operatorsHaveTokens, h]

mutual
theorem convertCondition_malformed : ∀ t : SyntaxTree, wellFormedCondition t = false →
    (∃ e, convertCondition t = .returned (.error e)) ∨
    (convertCondition t = .panicked ∧ operatorsHaveTokens t = false)
  | .mk dataType [] src pos raw, _ => by
    left
    rw [convertCondition]
    by_cases hk : dataType = .NodeCondition
    · exact ⟨.ConditionNoDefinition, by simp [hk]⟩
    · exact ⟨.NotConditionNode, by simp [hk]⟩
  | .mk dataType (first :: rest) src pos raw, h => by
    by_cases hk : dataType = .NodeCondition
    · by_cases hc : first.DataType = .NodeCondition
      · cases hw : wellFormedCondition first with
        | false =>
          rcases convertCondition_malformed first hw with ⟨e, he⟩ | ⟨hp, ht⟩
          · left
            refine ⟨e, ?_⟩
            rw [convertCondition]
            simp [hk, hc, he]
          · right
            refine ⟨?_, ?_⟩
            · rw [convertCondition]
              simp [hk, hc, hp]
            · exact operatorsHaveTokens_child (by simp [operatorsHaveTokensList, ht])
        | true =>
          obtain ⟨c, hcv⟩ := convertCondition_returns first hw
          have hr : wellFormedPairs rest = false := by
            simp only [wellFormedCondition, hk, hw, decide_True, Bool.or_true,
              Bool.true_and] at h
            exact h
          rw [convertCondition_first_condition _ _ _ _ _ _ c hk hc hcv]
          rcases convertConditionLoop_malformed rest hr _ _ with he | ⟨hp, ht⟩
          · exact Or.inl he
          · exact Or.inr ⟨hp, operatorsHaveTokens_child (by simp [operatorsHaveTokensList, ht])⟩
      · by_cases he : first.DataType = .NodeExpression
        · have hr : wellFormedPairs rest = false := by
            simp only [wellFormedCondition, hk, he, decide_True, Bool.true_or,
              Bool.true_and] at h
            exact h
          rw [convertCondition_first_expression _ _ _ _ _ _ hk he]
          rcases convertConditionLoop_malformed rest hr _ _ with he | ⟨hp, ht⟩
          · exact Or.inl he
          · exact Or.inr ⟨hp, operatorsHaveTokens_child (by simp [operatorsHaveTokensList, ht])⟩
        · left
          refine ⟨.ConditionFirstNode, ?_⟩
          rw [convertCondition]
          simp [hk, hc, he]
    · left
      refine ⟨.NotConditionNode, ?_⟩
      rw [convertCondition]
      simp [hk]
theorem convertConditionLoop_malformed : ∀ rest : List SyntaxTree,
    wellFormedPairs rest = false →
    ∀ (cond : ConditionDefinition) (index : Nat),
      (∃ e, convertConditionLoop cond index rest = .returned (.error e)) ∨
      (convertConditionLoop cond index rest = .panicked ∧
        operatorsHaveTokensList rest = false)
  | [], h, _, _ => by simp [wellFormedPairs] at h
  | [operatorNode], _, cond, index => by
    by_cases hk : operatorNode.DataType = .NodeOperator
    · cases ht : tokenAt operatorNode.Source operatorNode.StartPosition with
      | none =>
        right
        refine ⟨?_, ?_⟩
        · rw [convertConditionLoop]
          simp [hk, ht]
        · simp [operatorsHaveTokensList, operatorsHaveTokens_operator hk ht]
      | some token =>
        left
        rw [convertConditionLoop]
        by_cases hn : token.Typ ≠ .TokenAnd ∧ token.Typ ≠ .TokenOr
        · exact ⟨.OperatorNotAndOr, by simp [hk, ht, hn]⟩
        · exact ⟨.ConditionNoOperand, by simp only [hk, ht, hn]; simp⟩
    · left
      refine ⟨.ExpectOperatorNode index, ?_⟩
      rw [convertConditionLoop]
      simp [hk]
  | operatorNode :: operand :: remaining, h, cond, index => by
    by_cases hk : operatorNode.DataType = .NodeOperator
    · cases ht : tokenAt operatorNode.Source operatorNode.StartPosition with
      | none =>
        right
        refine ⟨?_, ?_⟩
        · rw [convertConditionLoop]
          simp [hk, ht]
        · simp [operatorsHaveTokensList, operatorsHaveTokens_operator hk ht]
      | some token =>
        by_cases hn : token.Typ ≠ .TokenAnd ∧ token.Typ ≠ .TokenOr
        · left
          rw [convertConditionLoop]
          exact ⟨.OperatorNotAndOr, by simp [hk, ht, hn]⟩
        · have htyp : token.Typ = .TokenAnd ∨ token.Typ = .TokenOr := by
            by_contra hcon
            exact hn ⟨fun h1 => hcon (Or.inl h1), fun h2 => hcon (Or.inr h2)⟩
          have hop : isAndOrOperator operatorNode = true := by
            simp only [isAndOrOperator, hk, ht, decide_True, Bool.true_and,
              Bool.or_eq_true, decide_eq_true_eq]
            exact htyp
          by_cases he : operand.DataType = .NodeExpression
          · have hr : wellFormedPairs remaining = false := by
              simp only [wellFormedPairs, hop, he, decide_True, Bool.true_or,
                Bool.true_and] at h
              exact h
            rw [convertConditionLoop_expression _ _ _ _ _ token hk ht htyp he]
            rcases convertConditionLoop_malformed remaining hr _ _ with hE | ⟨hp, htk⟩
            · exact Or.inl hE
            · exact Or.inr ⟨hp, by simp [operatorsHaveTokensList, htk]⟩
          · by_cases hc : operand.DataType = .NodeCondition
            · cases hw : wellFormedCondition operand with
              | false =>
                rcases convertCondition_malformed operand hw with ⟨e, hE⟩ | ⟨hp, htk⟩
                · left
                  refine ⟨e, ?_⟩
                  rw [convertConditionLoop]
                  simp [hk, ht, hn, he, hc, hE]
                · right
                  refine ⟨?_, ?_⟩
                  · rw [convertConditionLoop]
                    simp [hk, ht, hn, he, hc, hp]
                  · simp [operatorsHaveTokensList, htk]
              | true =>
                obtain ⟨c, hcv⟩ := convertCondition_returns operand hw
                have hr : wellFormedPairs remaining = false := by
                  simp only [wellFormedPairs, hop, hw, Bool.or_true, Bool.true_and] at h
                  exact h
                rw [convertConditionLoop_condition _ _ _ _ _ token c hk ht htyp hc hcv]
                rcases convertConditionLoop_malformed remaining hr _ _ with hE | ⟨hp, htk⟩
                · exact Or.inl hE
                · exact Or.inr ⟨hp, by simp [operatorsHaveTokensList, htk]⟩
            · left
              refine ⟨.ExpectOperandNode, ?_⟩
              rw [convertConditionLoop]
              simp [hk, ht, hn, he, hc]
    · left
      refine ⟨.ExpectOperatorNode index, ?_⟩
      rw [convertConditionLoop]
      simp [hk]
end

theorem wellFormedPairs_indexed : ∀ rest : List SyntaxTree,
    wellFormedPairs rest = true ↔
      rest.length % 2 = 0 ∧
      ∀ (i : Nat) (child : SyntaxTree), rest.get? i = some child →
        (i % 2 = 0 → isAndOrOperator child = true) ∧
        (i % 2 = 1 → wellFormedOperand child = true)
  | [] => by simp [wellFormedPairs]
  | [operatorNode] => by simp [wellFormedPairs]
  | operatorNode :: operand :: remaining => by
    have ih := wellFormedPairs_indexed remaining
    have hunfold : wellFormedPairs (operatorNode :: operand :: remaining) = true ↔
        isAndOrOperator operatorNode = true ∧ wellFormedOperand operand = true ∧
          wellFormedPairs remaining = true := by
      simp [wellFormedPairs, wellFormedOperand]
    rw [hunfold, ih]
    constructor
    · rintro ⟨ho, hd, hlen, hall⟩
      refine ⟨by simp only [List.length_cons]; omega, ?_⟩
      intro i child hget
      match i, hget with
      | 0, hget =>
        simp at hget
        subst hget
        exact ⟨fun _ => ho, fun h => by omega⟩
      | 1, hget =>
        simp at hget
        subst hget
        exact ⟨fun h => by omega, fun _ => hd⟩
      | j + 2, hget =>
        simp only [List.get?_cons_succ] at hget
        obtain ⟨h0, h1⟩ := hall j child hget
        exact ⟨fun h => h0 (by omega), fun h => h1 (by omega)⟩
    · rintro ⟨hlen, hall⟩
      refine ⟨(hall 0 operatorNode rfl).1 rfl, (hall 1 operand rfl).2 rfl, ?_, ?_⟩
      · simp only [List.length_cons] at hlen
        omega
      · intro j child hget
        obtain ⟨h0, h1⟩ := hall (j + 2) child (by simpa using hget)
        exact ⟨fun h => h0 (by omega), fun h => h1 (by omega)⟩

theorem wellFormedCondition_indexed (t : SyntaxTree) :
    wellFormedCondition t = true ↔
      t.DataType = .NodeCondition ∧ t.ChildNodes.length % 2 = 1 ∧
      ∀ (i : Nat) (child : SyntaxTree), t.ChildNodes.get? i = some child →
        (i % 2 = 0 → wellFormedOperand child = true) ∧
        (i % 2 = 1 → isAndOrOperator child = true) := by
  cases t with
  | mk d children s p r =>
    cases children with
    | nil => simp [wellFormedCondition, SyntaxTree.ChildNodes]
    | cons first rest =>
      have hunfold : wellFormedCondition (.mk d (first :: rest) s p r) = true ↔
          d = .NodeCondition ∧ wellFormedOperand first = true ∧
            wellFormedPairs rest = true := by
        simp [wellFormedCondition, wellFormedOperand]
      rw [hunfold, wellFormedPairs_indexed]
      simp only [SyntaxTree.DataType, SyntaxTree.ChildNodes, List.length_cons]
      constructor
      · rintro ⟨hd, hf, hlen, hall⟩
        refine ⟨hd, by omega, ?_⟩
        intro i child hget
        match i, hget with
        | 0, hget =>
          simp at hget
          subst hget
          exact ⟨fun _ => hf, fun h => by omega⟩
        | j + 1, hget =>
          simp only [List.get?_cons_succ] at hget
          obtain ⟨h0, h1⟩ := hall j child hget
          exact ⟨fun h => h1 (by omega), fun h => h0 (by omega)⟩
      · rintro ⟨hd, hlen, hall⟩
        refine ⟨hd, (hall 0 first rfl).1 rfl, by omega, ?_⟩
        intro j child hget
        obtain ⟨h0, h1⟩ := hall (j + 1) child (by simpa using hget)
        exact ⟨fun h => h1 (by omega), fun h => h0 (by omega)⟩

/-- C19, as the code has it: `convertCondition` returns a condition and no error
exactly on the well-formed nodes, where a node is well-formed when its kind is
Condition, it has an odd number of children, every child at an even index is an
Expression node or a well-formed Condition node, and every child at an odd index
is an Operator node whose token is AND or OR. On every other node it returns no
condition: it returns an error, or it panics on a slice index, and it can panic
only when some Operator node of the tree has no underlying token. -/
theorem convertCondition_succeeds_iff (t : SyntaxTree) :
    ((∃ c, convertCondition t = .returned (.ok c)) ↔ wellFormedCondition t = true) ∧
    (wellFormedCondition t = true ↔
      t.DataType = .NodeCondition ∧ t.ChildNodes.length % 2 = 1 ∧
      ∀ (i : Nat) (child : SyntaxTree), t.ChildNodes.get? i = some child →
        (i % 2 = 0 → wellFormedOperand child = true) ∧
        (i % 2 = 1 → isAndOrOperator child = true)) ∧
    (wellFormedCondition t = false →
      (∃ e, convertCondition t = .returned (.error e)) ∨
      (convertCondition t = .panicked ∧ operatorsHaveTokens t = false)) := by
  refine ⟨⟨?_, convertCondition_returns t⟩, wellFormedCondition_indexed t,
    convertCondition_malformed t⟩
  rintro ⟨c, hc⟩
  cases hw : wellFormedCondition t with
  | true => rfl
  | false =>
    rcases convertCondition_malformed t hw with ⟨e, he⟩ | ⟨hp, _⟩
    · rw [hc] at he
      simp at he
    · rw [hc] at hp
      simp at hp

/-- Counterexample to C19 as stated: a Condition node whose second child is an
Operator node without an underlying token is not well-formed, and
`convertCondition` returns neither a condition nor an error on it: reading the
token, `Source[StartPosition]`, panics. -/
theorem convertCondition_tokenless_operator_counterexample :
    wellFormedCondition tokenlessOperatorCondition = false ∧
    convertCondition tokenlessOperatorCondition = .panicked ∧
    ¬ ∃ e, convertCondition tokenlessOperatorCondition = .returned (.error e) := by
  have h : convertCondition tokenlessOperatorCondition = .panicked := rfl
  refine ⟨rfl, h, ?_⟩
  rintro ⟨e, he⟩
  rw [h] at he
  simp at he

/-- An Operator node without a token that is not reached does no harm: after two
operands in a row the error "expect operator node" is returned. -/
theorem convertCondition_defect_before_tokenless_operator :
    operatorsHaveTokens defectBeforeTokenlessOperator = false ∧
    convertCondition defectBeforeTokenlessOperator =
      .returned (.error (.ExpectOperatorNode 1)) :=
  ⟨rfl, rfl⟩

/-! ## The join converter: atomicity -/

theorem getJoinType_error {token : TokenType} {join : JoinType} {e : Err}
    (h : getJoinType token = (join, some e)) : e = .UnsupportedJoinToken token := by
  cases token <;> simp [getJoinType] at h <;> exact h.2.symm

/-- C20: `convertJoinAST` changes the view definition all at once or not at all.
Whenever it returns an error the view definition is as before the call, and the
error is one of: unsupported join token, missing source, missing operand,
missing operator. Whenever it returns no error the join list is the previous one
with exactly one join descriptor added at the end, everything else unchanged. -/
theorem convertJoinAST_atomic (viewDef : ViewDefinition) (ast : SyntaxTree) :
    (∀ (after : ViewDefinition) (e : Err),
      convertJoinAST viewDef ast = .returned (after, some e) →
        after = viewDef ∧
        (e = .JoinNoOperand ∨ e = .JoinNoOperator ∨ e = .JoinNoSource ast.RawString ∨
          ∃ token, e = .UnsupportedJoinToken token)) ∧
    (∀ after : ViewDefinition,
      convertJoinAST viewDef ast = .returned (after, none) →
        (∃ join : JoinDefinition,
          after = { viewDef with
            Query := { viewDef.Query with Joins := viewDef.Query.Joins ++ [join] } }) ∧
        after.Query.Joins.length = viewDef.Query.Joins.length + 1) := by
  unfold convertJoinAST
  simp only []
  constructor
  · intro after e h
    split at h
    · simp at h
    · split at h
      · rename_i hj
        simp only [Outcome.returned.injEq, Prod.mk.injEq, Option.some.injEq] at h
        obtain ⟨h1, h2⟩ := h
        subst h1 h2
        exact ⟨rfl, Or.inr (Or.inr (Or.inr ⟨_, getJoinType_error hj⟩))⟩
      · split at h
        · simp only [Outcome.returned.injEq, Prod.mk.injEq, Option.some.injEq] at h
          obtain ⟨h1, h2⟩ := h
          subst h1 h2
          exact ⟨rfl, Or.inr (Or.inr (Or.inl rfl))⟩
        · repeat' split at h
          all_goals simp [QueryDefinition.JoinAdd] at h
          all_goals
            obtain ⟨h1, h2⟩ := h
            subst h1 h2
            simp
  · intro after h
    split at h
    · simp at h
    · split at h
      · simp at h
      · split at h
        · simp at h
        · repeat' split at h
          all_goals simp [QueryDefinition.JoinAdd] at h
          all_goals
            subst h
            simp

/-! ## The From and Select clauses -/

/-- C14: on a From node the dispatcher sets the from-clause to (source text, "")
when the children are [Source], to (source text, alias text) when they are
[Source, Alias], and returns the error "Invalid AST for FROM syntax" for every
other shape of the children. -/
theorem fromSource_shapes (viewDef : ViewDefinition) (node : SyntaxTree)
    (hKind : node.DataType = .NodeFrom) :
    (∀ source, node.ChildNodes = [source] → source.DataType = .NodeSource →
      dispatchNode viewDef node =
        .returned
          ({ viewDef with
              Query := { viewDef.Query with FromClause := some (source.RawString, "") } },
            none)) ∧
    (∀ source aliasNode, node.ChildNodes = [source, aliasNode] →
      source.DataType = .NodeSource → aliasNode.DataType = .NodeAlias →
      dispatchNode viewDef node =
        .returned
          ({ viewDef with
              Query := { viewDef.Query with
                FromClause := some (source.RawString, aliasNode.RawString) } },
            none)) ∧
    (childKinds node ≠ [.NodeSource] → childKinds node ≠ [.NodeSource, .NodeAlias] →
      dispatchNode viewDef node = .returned (viewDef, some .InvalidFrom)) := by
  have hd : dispatchNode viewDef node = .returned (fromSource viewDef node) := by
    unfold dispatchNode
    rw [hKind]
  rw [hd]
  refine ⟨?_, ?_, ?_⟩
  · intro source hc hs
    simp [fromSource, hc, hs, QueryDefinition.From]
  · intro source aliasNode hc hs ha
    simp [fromSource, hc, hs, ha, QueryDefinition.From]
  · intro h1 h2
    unfold childKinds at h1 h2
    unfold fromSource
    split
    · rename_i source hc
      have : source.DataType ≠ .NodeSource := by
        intro hs
        exact h1 (by simp [hc, hs])
      simp [this]
    · rename_i source aliasNode hc
      have : ¬ (source.DataType = .NodeSource ∧ aliasNode.DataType = .NodeAlias) := by
        rintro ⟨hs, ha⟩
        exact h2 (by simp [hc, hs, ha])
      simp [this]
    · rfl

/-- Witness of C14: `FROM invoices` and `FROM invoices i`. -/
theorem fromSource_shapes_witness :
    dispatchNode (NewViewDefinition "") exampleFrom =
      .returned (⟨"", ⟨[], some ("invoices", ""), [], none⟩⟩, none) ∧
    dispatchNode (NewViewDefinition "") aliasedFrom =
      .returned (⟨"", ⟨[], some ("invoices", "i"), [], none⟩⟩, none) :=
  ⟨(fromSource_shapes (NewViewDefinition "") exampleFrom rfl).1 _ rfl rfl,
   (fromSource_shapes (NewViewDefinition "") aliasedFrom rfl).2.1 _ _ rfl rfl rfl⟩

theorem wellFormedColumn_iff (col : SyntaxTree) :
    wellFormedColumn col = true ↔
      (childKinds col = [.NodeColName] ∨ childKinds col = [.NodeColName, .NodeAlias]) := by
  simp [wellFormedColumn]

theorem selectColumns_malformed (viewDef : ViewDefinition) (col : SyntaxTree)
    (cols : List SyntaxTree) (h : wellFormedColumn col = false) :
    selectColumns viewDef (col :: cols) = (viewDef, some .InvalidSelect) := by
  have hn : ¬ (childKinds col = [.NodeColName] ∨
      childKinds col = [.NodeColName, .NodeAlias]) := by
    intro hc
    rw [(wellFormedColumn_iff col).mpr hc] at h
    exact Bool.noConfusion h
  unfold childKinds at hn
  unfold selectColumns
  split
  · rename_i c a hc
    have : ¬ (c.DataType = .NodeColName ∧ a.DataType = .NodeAlias) := by
      rintro ⟨h1, h2⟩
      exact hn (Or.inr (by simp [hc, h1, h2]))
    simp [this]
  · rename_i c hc
    have : c.DataType ≠ .NodeColName := by
      intro h1
      exact hn (Or.inl (by simp [hc, h1]))
    simp [this]
  · rfl

theorem selectColumns_append (good : List SyntaxTree) (rest : List SyntaxTree) :
    ∀ viewDef : ViewDefinition,
    (∀ col ∈ good, wellFormedColumn col = true) →
    selectColumns viewDef (good ++ rest) =
      selectColumns
        { viewDef with
          Query := { viewDef.Query with
            SelectItems := viewDef.Query.SelectItems ++ good.map columnPair } } rest := by
  induction good with
  | nil => intro viewDef _; simp
  | cons col good ih =>
    intro viewDef h
    have hcol := (wellFormedColumn_iff col).mp (h col (List.mem_cons_self _ _))
    have hrest : ∀ c ∈ good, wellFormedColumn c = true :=
      fun c hc => h c (List.mem_cons_of_mem _ hc)
    rw [List.cons_append]
    rcases hcol with h1 | h2
    · obtain ⟨c, hc, hk⟩ := childKinds_one h1
      rw [selectColumns, hc]
      simp only [hk, if_true]
      rw [ih _ hrest]
      simp [QueryDefinition.Select, columnPair, hc]
    · obtain ⟨c, a, hc, hk, ha⟩ := childKinds_two h2
      rw [selectColumns, hc]
      simp only [hk, ha, and_self, if_true]
      rw [ih _ hrest]
      simp [QueryDefinition.Select, columnPair, hc]

theorem exists_first_malformed (cols : List SyntaxTree)
    (h : ∃ col ∈ cols, wellFormedColumn col = false) :
    ∃ good bad rest, cols = good ++ bad :: rest ∧
      (∀ col ∈ good, wellFormedColumn col = true) ∧ wellFormedColumn bad = false := by
  induction cols with
  | nil => simp at h
  | cons col cols ih =>
    cases hw : wellFormedColumn col with
    | false => exact ⟨[], col, cols, rfl, by simp, hw⟩
    | true =>
      obtain ⟨bad, hmem, hbad⟩ := h
      have hin : bad ∈ cols := by
        rcases List.mem_cons.mp hmem with h1 | h1
        · rw [h1, hw] at hbad
          exact Bool.noConfusion hbad
        · exact h1
      obtain ⟨good, b, rest, hc, hg, hb⟩ := ih ⟨bad, hin, hbad⟩
      refine ⟨col :: good, b, rest, by simp [hc], ?_, hb⟩
      intro c hcm
      rcases List.mem_cons.mp hcm with h1 | h1
      · rw [h1]; exact hw
      · exact hg c h1

/-- C15: on a Select node the dispatcher returns an error exactly when some child
has a child list that is neither [ColumnName] nor [ColumnName, Alias]; the error
is then "Invalid AST for SELECT syntax", and it is raised at the first such
child: the columns before it have been added to the select list, in order, and
nothing after it. -/
theorem select_error_iff (viewDef : ViewDefinition) (node : SyntaxTree)
    (hKind : node.DataType = .NodeSelect) :
    ((∃ after e, dispatchNode viewDef node = .returned (after, some e)) ↔
      ∃ col ∈ node.ChildNodes, wellFormedColumn col = false) ∧
    (∀ after e, dispatchNode viewDef node = .returned (after, some e) →
      e = .InvalidSelect) ∧
    (∀ good bad rest, node.ChildNodes = good ++ bad :: rest →
      (∀ col ∈ good, wellFormedColumn col = true) → wellFormedColumn bad = false →
      dispatchNode viewDef node =
        .returned
          ({ viewDef with
              Query := { viewDef.Query with
                SelectItems := viewDef.Query.SelectItems ++ good.map columnPair } },
            some .InvalidSelect)) := by
  have hd : dispatchNode viewDef node = .returned (selectColumns viewDef node.ChildNodes) := by
    unfold dispatchNode
    rw [hKind]
  have hfirst : ∀ good bad rest, node.ChildNodes = good ++ bad :: rest →
      (∀ col ∈ good, wellFormedColumn col = true) → wellFormedColumn bad = false →
      dispatchNode viewDef node =
        .returned
          ({ viewDef with
              Query := { viewDef.Query with
                SelectItems := viewDef.Query.SelectItems ++ good.map columnPair } },
            some .InvalidSelect) := by
    intro good bad rest hc hg hb
    rw [hd, hc, selectColumns_append good _ _ hg, selectColumns_malformed _ _ _ hb]
  have hcases : (∃ col ∈ node.ChildNodes, wellFormedColumn col = false) ∨
      (∀ col ∈ node.ChildNodes, wellFormedColumn col = true) := by
    by_cases hex : ∃ col ∈ node.ChildNodes, wellFormedColumn col = false
    · exact Or.inl hex
    · right
      intro col hm
      cases hw : wellFormedColumn col with
      | true => rfl
      | false => exact absurd ⟨col, hm, hw⟩ hex
  have hgood : (∀ col ∈ node.ChildNodes, wellFormedColumn col = true) →
      ∀ after e, dispatchNode viewDef node ≠ .returned (after, some e) := by
    intro hall after e
    rw [hd, selectColumns_wellformed _ _
      (fun col hm => (wellFormedColumn_iff col).mp (hall col hm))]
    simp
  refine ⟨⟨?_, ?_⟩, ?_, hfirst⟩
  · rintro ⟨after, e, he⟩
    rcases hcases with hex | hall
    · exact hex
    · exact absurd he (hgood hall after e)
  · intro hex
    obtain ⟨good, bad, rest, hc, hg, hb⟩ := exists_first_malformed _ hex
    exact ⟨_, _, hfirst good bad rest hc hg hb⟩
  · intro after e he
    rcases hcases with hex | hall
    · obtain ⟨good, bad, rest, hc, hg, hb⟩ := exists_first_malformed _ hex
      rw [hfirst good bad rest hc hg hb] at he
      simp only [Outcome.returned.injEq, Prod.mk.injEq, Option.some.injEq] at he
      exact he.2.symm
    · exact absurd he (hgood hall after e)

/-- Witness of C15: in `SELECT id, AS pk, name` the second column has no
ColumnName child; the error comes after `id` was added and before `name`. -/
theorem select_error_iff_witness :
    dispatchNode (NewViewDefinition "") brokenSelect =
      .returned (⟨"", ⟨[("id", "")], none, [], none⟩⟩, some .InvalidSelect) :=
  (select_error_iff (NewViewDefinition "") brokenSelect rfl).2.2
    [.mk (.NodeOther 0) [leaf .NodeColName "id"] [] 0 "id"]
    (.mk (.NodeOther 0) [leaf .NodeAlias "pk"] [] 0 "AS pk")
    [.mk (.NodeOther 0) [leaf .NodeColName "name"] [] 0 "name"]
    rfl (by decide) (by decide)

/-! ## The clause dispatcher: other clauses and the catalog -/

theorem dispatchNode_other (viewDef : ViewDefinition) (node : SyntaxTree)
    (h : node.DataType ∉ clauseKinds) :
    dispatchNode viewDef node = .returned (viewDef, none) := by
  simp only [clauseKinds, List.mem_cons, List.mem_singleton, not_or, List.mem_nil_iff,
    or_false] at h
  obtain ⟨h1, h2, h3, h4⟩ := h
  unfold dispatchNode
  split
  · rename_i hk; exact absurd hk h1
  · rename_i hk; exact absurd hk h2
  · rename_i hk; exact absurd hk h3
  · rfl
  · rfl

theorem dispatchNodes_skip (pre : List SyntaxTree) (other : SyntaxTree)
    (post : List SyntaxTree) (h : other.DataType ∉ clauseKinds) :
    ∀ viewDef : ViewDefinition,
      dispatchNodes viewDef (pre ++ other :: post) = dispatchNodes viewDef (pre ++ post) := by
  induction pre with
  | nil =>
    intro viewDef
    simp only [List.nil_append]
    rw [dispatchNodes, dispatchNode_other viewDef other h]
  | cons node pre ih =>
    intro viewDef
    simp only [List.cons_append]
    rw [dispatchNodes, dispatchNodes]
    cases dispatchNode viewDef node with
    | panicked => rfl
    | returned r =>
      obtain ⟨v, e⟩ := r
      cases e with
      | none => exact ih v
      | some err => rfl

/-- C16: a root child whose kind is not Select, From, Join or Where is passed over
by the dispatcher: it raises no error and leaves the view definition as it was,
so the outcome of the loop over the clauses, and of `GetViewDefinition`, is the
one for the same tree without that child. -/
theorem unknown_clause_ignored (viewDef : ViewDefinition) (pre : List SyntaxTree)
    (other : SyntaxTree) (post : List SyntaxTree)
    (hOther : other.DataType ∉ clauseKinds) :
    dispatchNode viewDef other = .returned (viewDef, none) ∧
    dispatchNodes viewDef (pre ++ other :: post) = dispatchNodes viewDef (pre ++ post) ∧
    (∀ (db : DbHandlerProxy) (dbName viewName : String) (source : List TokenItem)
        (position : Int) (raw : String),
      GetViewDefinition (parsesTo (.mk .NodeQuery (pre ++ other :: post) source position raw))
          db dbName viewName =
        GetViewDefinition (parsesTo (.mk .NodeQuery (pre ++ post) source position raw))
          db dbName viewName) := by
  refine ⟨dispatchNode_other viewDef other hOther,
    dispatchNodes_skip pre other post hOther viewDef, ?_⟩
  intro db dbName viewName source position raw
  unfold GetViewDefinition
  simp only [parsesTo, SyntaxTree.DataType, SyntaxTree.ChildNodes]
  rw [dispatchNodes_skip pre other post hOther]

/-- Witness of C16: a `GROUP BY id` node between the From and the Join clause. -/
theorem unknown_clause_ignored_witness :
    dispatchNodes (NewViewDefinition "")
        ([exampleSelect, exampleFrom] ++ groupByNode :: [exampleJoin]) =
      .returned
        (⟨"", ⟨[("id", "pk"), ("name", "")], some ("invoices", ""),
          [⟨.LeftJoin, "orders", "o", "o.id = invoices.order_id"⟩], none⟩⟩, none) :=
  ((unknown_clause_ignored (NewViewDefinition "") [exampleSelect, exampleFrom] groupByNode
    [exampleJoin] (by decide)).2.1).trans rfl

theorem getViewDefinition_not_found (db : DbHandlerProxy) (dbName viewName : String)
    (h : db.Query viewDefinitionQuery [dbName, viewName] = .ok [] ∨
      ∃ rest, db.Query viewDefinitionQuery [dbName, viewName] = .ok (.ok "" :: rest)) :
    getViewDefinition db dbName viewName = .error (.NoViewDefinition dbName viewName) := by
  unfold getViewDefinition
  simp only [viewDefinitionQuery] at h
  rcases h with h | ⟨rest, h⟩
  · rw [h]
    simp
  · rw [h]
    simp

/-- C17: when the catalog query returns no row, or a first row whose definition
text is empty, `GetViewDefinition` returns the error "No view definition found
for <dbName>.<viewName>", whatever the parser is: the parser is not called. -/
theorem GetViewDefinition_not_found (ParseSQL : String → Except Err SyntaxTree)
    (db : DbHandlerProxy) (dbName viewName : String)
    (hRows : db.Query viewDefinitionQuery [dbName, viewName] = .ok [] ∨
      ∃ rest, db.Query viewDefinitionQuery [dbName, viewName] = .ok (.ok "" :: rest)) :
    GetViewDefinition ParseSQL db dbName viewName =
      .returned (.error (.NoViewDefinition dbName viewName)) := by
  unfold GetViewDefinition
  rw [getViewDefinition_not_found db dbName viewName hRows]

/-- Witness of C17: a catalog without rows. -/
theorem GetViewDefinition_not_found_witness :
    GetViewDefinition (parsesTo exampleQuery) emptyDb "shop" "invoice_view" =
      .returned (.error (.NoViewDefinition "shop" "invoice_view")) :=
  GetViewDefinition_not_found (parsesTo exampleQuery) emptyDb "shop" "invoice_view"
    (Or.inl rfl)

theorem foldl_append_names (rows : List (Except Err String)) :
    ∀ start : List String,
      rows.foldl
        (fun result row =>
          let tmp := match row with
            | .ok name => name
            | .error _ => ""
          result ++ [tmp]) start =
      start ++ rows.map (fun row => match row with
        | .ok name => name
        | .error _ => "") := by
  induction rows with
  | nil => intro start; simp
  | cons row rows ih =>
    intro start
    simp only [List.foldl_cons, List.map_cons]
    rw [ih]
    simp

theorem GetViewNames_leading_blanks (db : DbHandlerProxy) (dbName searchPattern : String)
    (names : List String)
    (hRows : db.Query viewNamesQuery [dbName, searchPattern] = .ok (names.map .ok)) :
    GetViewNames db dbName searchPattern = .ok (List.replicate 5 "" ++ names) := by
  unfold GetViewNames
  simp only [viewNamesQuery] at hRows
  rw [hRows]
  have hid : ((fun row : Except Err String => match row with
      | .ok name => name
      | .error _ => "") ∘ Except.ok) = id := by
    funext name
    rfl
  simp only [foldl_append_names, List.map_map, hid, List.map_id]

/-- C18: `GetViewNames` does not return exactly the names of the rows. The result
starts as `make([]string, 5)`, five empty strings, and the names are appended
after them: no row gives five empty names, two rows give seven entries. -/
theorem GetViewNames_example_leading_blanks :
    GetViewNames emptyDb "shop" "v_%" = .ok ["", "", "", "", ""] ∧
    GetViewNames twoViewsDb "shop" "v_%" =
      .ok ["", "", "", "", "", "v_orders", "v_invoices"] :=
  ⟨rfl, rfl⟩

end MySQLMetaQuery
